import Mathlib

/-!
Shallow embedding of the laminar execution core (`src/core/agent.ts`,
`src/utils/token-aggregator.ts`) together with proofs about its
specification.  Pure functions of the source become Lean functions;
stateful execution (event emission, id generation, the scripted model
client) becomes explicit state passing.  JavaScript exceptions are
modelled by `Except`: a function that may let an exception escape
returns `Except Err α`, while a caught exception becomes a populated
`error` field on the corresponding result value.  Wall-clock time
(`Date.now()`, `duration` fields) is outside the model.
-/

namespace Laminar

/-- JavaScript exception values, modelled by their string form. -/
abbrev Err := String

/-! ## Token usage (src/utils/token-aggregator.ts) -/

/-- Mirror of the `TokenUsage` interface.  Token counts are natural
numbers; the two cache counters are optional exactly as in the source. -/
structure TokenUsage where
  inputTokens : Nat
  outputTokens : Nat
  cacheCreationInputTokens : Option Nat := none
  cacheReadInputTokens : Option Nat := none
deriving Repr, DecidableEq

/-- Mirror of `emptyTokenUsage`. -/
def emptyTokenUsage : TokenUsage :=
  { inputTokens := 0, outputTokens := 0 }

/-- One iteration of the accumulation loop in `aggregateTokenUsage`.
JavaScript tests the cache counters for truthiness, so an absent counter
and a present-but-zero counter are both skipped. -/
def addUsage (acc usage : TokenUsage) : TokenUsage :=
  { inputTokens := acc.inputTokens + usage.inputTokens
    outputTokens := acc.outputTokens + usage.outputTokens
    cacheCreationInputTokens :=
      match usage.cacheCreationInputTokens with
      | some n =>
          if n ≠ 0 then some (acc.cacheCreationInputTokens.getD 0 + n)
          else acc.cacheCreationInputTokens
      | none => acc.cacheCreationInputTokens
    cacheReadInputTokens :=
      match usage.cacheReadInputTokens with
      | some n =>
          if n ≠ 0 then some (acc.cacheReadInputTokens.getD 0 + n)
          else acc.cacheReadInputTokens
      | none => acc.cacheReadInputTokens }

/-- Mirror of `aggregateTokenUsage`: fold the accumulation loop over the
list, starting from a result with both cache fields absent. -/
def aggregateTokenUsage (usages : List TokenUsage) : TokenUsage :=
  usages.foldl addUsage { inputTokens := 0, outputTokens := 0 }

/-! ## JavaScript values and template interpolation -/

/-- The fragment of JavaScript runtime values that the execution core
manipulates: `null`/`undefined` (collapsed into `null`, since the source
only ever distinguishes them through `??`, which treats them alike),
booleans, integral numbers, strings and plain objects. -/
inductive JVal where
  | null
  | bool (b : Bool)
  | num (n : Int)
  | str (s : String)
  | obj (fields : List (String × JVal))

/-- JavaScript `String(v)` on the modelled value fragment. -/
def JVal.toDisplayString : JVal → String
  | .null => "null"
  | .bool b => if b then "true" else "false"
  | .num n => toString n
  | .str s => s
  | .obj _ => "[object Object]"

/-- JavaScript truthiness on the modelled value fragment. -/
def JVal.truthy : JVal → Bool
  | .null => false
  | .bool b => b
  | .num n => n != 0
  | .str s => s ≠ ""
  | .obj _ => true

/-- `typeof v === 'object'` for a non-null value of the fragment. -/
def JVal.isObject : JVal → Bool
  | .obj _ => true
  | _ => false

/-- JavaScript `key in v` on a plain object (own properties). -/
def JVal.hasKey (v : JVal) (key : String) : Bool :=
  match v with
  | .obj fields => fields.any (fun p => p.1 == key)
  | _ => false

/-- Property lookup `v[key]`; only meaningful under `hasKey`. -/
def JVal.get (v : JVal) (key : String) : JVal :=
  match v with
  | .obj fields =>
      match fields.find? (fun p => p.1 == key) with
      | some p => p.2
      | none => .null
  | _ => .null

/-- JavaScript `String.prototype.trim` on a character list. -/
def jsTrim (s : List Char) : List Char :=
  ((s.dropWhile Char.isWhitespace).reverse.dropWhile Char.isWhitespace).reverse

/-- JavaScript `split('.')`: always at least one group, empty groups kept. -/
def splitOnDot : List Char → List (List Char)
  | [] => [[]]
  | c :: rest =>
    if c = '.' then [] :: splitOnDot rest
    else
      match splitOnDot rest with
      | [] => [[c]]
      | g :: gs => (c :: g) :: gs

/-- The per-placeholder walk of `PromptInstance.interpolate`: follow the
path segment by segment through the context; if a segment is missing or
the current value is not a truthy object, return the original matched
text unchanged; once resolved, `String(value ?? match)` keeps the match
for `null`, else renders the value. -/
def walkPath (matchText : String) : List (List Char) → JVal → String
  | [], v =>
      match v with
      | .null => matchText
      | v => v.toDisplayString
  | key :: rest, v =>
      if v.truthy && v.isObject && v.hasKey (String.mk key) then
        walkPath matchText rest (v.get (String.mk key))
      else matchText

/-- Resolve one `\x7b\x7bpath\x7d\x7d` placeholder against the context:
trim the captured path, split it on `.`, and walk. -/
def resolvePlaceholder (ctx : List (String × JVal)) (inner : List Char) : String :=
  let matchText := String.mk ('{' :: '{' :: inner ++ ['}', '}'])
  walkPath matchText (splitOnDot (jsTrim inner)) (JVal.obj ctx)

/-- The scan of `template.replace(re, ...)` for the placeholder pattern:
at each position, a match is `\x7b\x7b`, one or more non-`\x7d`
characters, then `\x7d\x7d`; on a match the replacement is emitted
without rescanning and the scan resumes after the match, otherwise one
character is emitted and the scan advances.  `fuel` starts at the
character count and strictly bounds the recursion; it never runs out. -/
def interpolateCore (ctx : List (String × JVal)) : Nat → List Char → List Char
  | 0, _ => []
  | _ + 1, [] => []
  | fuel + 1, c :: cs =>
    if c = '{' then
      match cs with
      | c2 :: rest =>
        if c2 = '{' then
          let inner := rest.takeWhile (fun ch => ch ≠ '}')
          let after := rest.drop inner.length
          match inner, after with
          | _ :: _, '}' :: '}' :: tail =>
              (resolvePlaceholder ctx inner).data ++ interpolateCore ctx fuel tail
          | _, _ => c :: interpolateCore ctx fuel cs
        else c :: interpolateCore ctx fuel cs
      | [] => [c]
    else c :: interpolateCore ctx fuel cs

/-- Mirror of `PromptInstance.interpolate`. -/
def interpolate (template : String) (ctx : List (String × JVal)) : String :=
  String.mk (interpolateCore ctx template.data.length template.data)

/-! ## Model client (src/integrations/anthropic-client.ts as consumed) -/

/-- Content blocks of a model response.  Tool inputs and outputs are
modelled as strings. -/
inductive ContentBlock where
  | text (text : String)
  | toolUse (id : String) (name : String) (input : String)
deriving Repr, DecidableEq

/-- The wrapped reply of `AnthropicClient.createMessage` as the executor
sees it; `stopReason` is `string | null`. -/
structure Response where
  content : List ContentBlock
  stopReason : Option String
  usage : TokenUsage
deriving Repr, DecidableEq

/-- A scripted model client: each `createMessage` call consumes the next
entry, which either resolves to a response or rejects with an error.  An
exhausted script rejects as well.  This covers every deterministic
client behavior the executor can observe. -/
abbrev ClientScript := List (Except Err Response)

/-- The rejection produced by the model of an exhausted client script. -/
def clientExhausted : Err := "client: no scripted response"

/-- One `tool_result` entry of the follow-up user turn. -/
structure ToolResultEntry where
  toolUseId : String
  content : String
deriving Repr, DecidableEq

/-- Contents a message turn can carry. -/
inductive MsgContent where
  | str (s : String)
  | blocks (blocks : List ContentBlock)
  | toolResults (results : List ToolResultEntry)
deriving Repr, DecidableEq

/-- One turn of the conversation sent to the client. -/
structure MessageParam where
  role : String
  content : MsgContent
deriving Repr, DecidableEq

/-- A tool definition sent to the model.  In the source every definition
carries the constant input schema `\x7btype: 'object', properties: \x7b\x7d\x7d`,
so only name and description vary. -/
structure Tool where
  name : String
  description : String
deriving Repr, DecidableEq

/-- The parameters of one `createMessage` call. -/
structure MessageRequest where
  model : String
  maxTokens : Nat
  system : Option String
  messages : List MessageParam
  tools : Option (List Tool)
deriving Repr, DecidableEq

/-! ## Events and execution state -/

/-- The lifecycle events the execution core emits, carrying the
identifying keys used for correlation.  `promptInstanceEnd` carries
whether the attached result had a populated error.  Timestamps,
durations and full result payloads are outside the model. -/
inductive WorkflowEvent where
  | stepStart (step : String)
  | stepEnd (step : String)
  | agentRunStart (agentId : String) (agentName : String)
  | agentRunEnd (agentId : String) (agentName : String)
  | promptInstanceStart (promptId : String) (promptName : String)
  | promptInstanceEnd (promptId : String) (promptName : String) (errored : Bool)
  | promptTokenReceived (promptId : String) (token : String)
  | toolCallStart (toolId : String) (toolName : String) (parentPromptId : String)
  | toolCallEnd (toolId : String) (toolName : String) (parentPromptId : String)
  | reflectionStart (agentId : String)
  | reflectionEnd (agentId : String)
deriving Repr, DecidableEq

/-- Model of `generateId`: the n-th fresh id.  The source draws random
unique ids; the model draws them from a counter threaded through the
run. -/
def genId (n : Nat) : String := "id-" ++ toString n

/-- Modelled from the spec: the EventBus ("Observable") is a synchronous
single-threaded channel, so the observable behavior of a run is the
ordered list of events published to it.  `src/utils/observable.ts` is
not part of the given sources; per §4.4 of the spec publication is
synchronous and in order, which the event list records.  The state also
carries the requests handed to the model client and the id counter. -/
structure EvSt where
  events : List WorkflowEvent
  sent : List MessageRequest
  nextId : Nat
deriving Repr, DecidableEq

/-- Publish one event. -/
def EvSt.emit (st : EvSt) (e : WorkflowEvent) : EvSt :=
  { st with events := st.events ++ [e] }

/-- Record one request handed to the model client. -/
def EvSt.logSent (st : EvSt) (r : MessageRequest) : EvSt :=
  { st with sent := st.sent ++ [r] }

/-- The state every run starts from. -/
def EvSt.initial : EvSt := { events := [], sent := [], nextId := 0 }

/-! ## Prompt data model (src/types/prompt-config.ts) -/

/-- Mirror of `ToolCallEvent` (the recorded tool call).  The `duration`
field is wall-clock time and outside the model. -/
structure ToolCallEvent where
  id : String
  toolName : String
  input : String
  output : Option String
  error : Option Err
  parentPromptId : String
deriving Repr, DecidableEq

/-- Mirror of `PromptResult`.  `duration` is outside the model;
`mcpEvents` is omitted because nothing in the executor ever populates
it; `cacheHit` is omitted because nothing ever sets it. -/
structure PromptResult where
  content : String
  tokenUsage : TokenUsage
  toolCalls : List ToolCallEvent
  error : Option Err := none
deriving Repr, DecidableEq

/-- Mirror of `PromptHooks` for the hooks the executor invokes
(`onMCP` and `onValidationError` are never called).  A hook returning
`Except.error` models a hook that throws. -/
structure PromptHooks where
  beforeCall : Option (JVal → Except Err JVal) := none
  afterCall : Option (PromptResult → Except Err PromptResult) := none
  onTool : Option (ToolCallEvent → Except Err Unit) := none

/-- Mirror of `PromptConfig` for the fields the executor reads
(`cacheable` and `jsonSchema` are never read by execution). -/
structure PromptConfig where
  id : Option String := none
  name : String
  system : Option String := none
  user : String
  model : Option String := none
  hooks : PromptHooks := {}

/-- The registered tool-handler map (`Map<string, handler>`), in
insertion order; a handler returning `Except.error` models a handler
that throws. -/
abbrev ToolHandlers := List (String × (String → Except Err String))

/-- `JSON.stringify` on a string value. -/
def jsonStringifyString (s : String) : String :=
  "\"" ++ (s.data.foldl (fun acc c =>
    if c = '"' then acc ++ "\\\""
    else if c = '\\' then acc ++ "\\\\"
    else acc ++ String.mk [c]) "") ++ "\""

/-- The string form of the synthesized unknown-tool error. -/
def unknownToolError (name : String) : Err := "Error: Unknown tool: " ++ name

/-! ## PromptInstance.run (src/core/prompt-instance.ts) -/

/-- The per-tool-use body of the tool loop: emit `toolCallStart`, look
the handler up by name; if found, run the `onTool` hook then the
handler, a throw from either becoming the tool error; if not found,
synthesize the unknown-tool error.  Emit `toolCallEnd`, record the
call, and produce the `tool_result` entry (errors stringified, outputs
JSON-stringified). -/
def runToolCall (handlers : ToolHandlers) (hooks : PromptHooks) (promptId : String)
    (st : EvSt) (blockId name input : String) :
    EvSt × ToolCallEvent × ToolResultEntry :=
  let toolId := genId st.nextId
  let st : EvSt := { st with nextId := st.nextId + 1 }
  let st := st.emit (.toolCallStart toolId name promptId)
  let outcome : Option String × Option Err :=
    match handlers.find? (fun p => p.1 == name) with
    | some handler =>
        let hookRun : Except Err Unit :=
          match hooks.onTool with
          | some f => f { id := toolId, toolName := name, input := input,
                          output := none, error := none, parentPromptId := promptId }
          | none => .ok ()
        match hookRun with
        | .error e => (none, some e)
        | .ok _ =>
            match handler.2 input with
            | .ok out => (some out, none)
            | .error e => (none, some e)
    | none => (none, some (unknownToolError name))
  let st := st.emit (.toolCallEnd toolId name promptId)
  (st,
   { id := toolId, toolName := name, input := input,
     output := outcome.1, error := outcome.2, parentPromptId := promptId },
   { toolUseId := blockId
     content :=
       match outcome.2 with
       | some e => e
       | none => jsonStringifyString (outcome.1.getD "") })

/-- Walk the content blocks of a tool-use response in order, running
every `tool_use` block and skipping text blocks. -/
def processBlocks (handlers : ToolHandlers) (hooks : PromptHooks) (promptId : String)
    (st : EvSt) : List ContentBlock → EvSt × List ToolCallEvent × List ToolResultEntry
  | [] => (st, [], [])
  | .text _ :: rest => processBlocks handlers hooks promptId st rest
  | .toolUse blockId name input :: rest =>
      let out := runToolCall handlers hooks promptId st blockId name input
      let outs := processBlocks handlers hooks promptId out.1 rest
      (outs.1, out.2.1 :: outs.2.1, out.2.2 :: outs.2.2)

/-- One iteration of the agentic loop of `PromptInstance.run`, up to
the next client call: append the assistant turn holding the verbatim
response, run every tool-use block, append the tool-result user turn,
and hand the follow-up request (grown history, identical system/tool
configuration) to the client.  Returns the grown history, the grown
tool-call records, and the state after logging the follow-up request. -/
def toolLoopStep (handlers : ToolHandlers) (hooks : PromptHooks) (promptId : String)
    (model : String) (system : Option String) (tools : Option (List Tool))
    (messages : List MessageParam) (response : Response)
    (toolCalls : List ToolCallEvent) (st : EvSt) :
    List MessageParam × List ToolCallEvent × EvSt :=
  let messages := messages ++ [⟨"assistant", .blocks response.content⟩]
  let processed := processBlocks handlers hooks promptId st response.content
  let st := processed.1
  let toolCalls := toolCalls ++ processed.2.1
  let messages := messages ++ [⟨"user", .toolResults processed.2.2⟩]
  let st := st.logSent { model := model, maxTokens := 4096, system := system,
                         messages := messages, tools := tools }
  (messages, toolCalls, st)

/-- The agentic loop of `PromptInstance.run`: while the stop reason is
`tool_use`, run one `toolLoopStep` and re-invoke the client,
accumulating usage from every call.  A client rejection (scripted or
from an exhausted script) surfaces as `Except.error` together with
whatever usage and records had accumulated. -/
def toolLoop (handlers : ToolHandlers) (hooks : PromptHooks) (promptId : String)
    (model : String) (system : Option String) (tools : Option (List Tool)) :
    ClientScript → List MessageParam → Response → TokenUsage → List ToolCallEvent →
    EvSt → EvSt × ClientScript × TokenUsage × List ToolCallEvent × Except Err Response
  | [], messages, response, usage, toolCalls, st =>
      if response.stopReason = some "tool_use" then
        let step := toolLoopStep handlers hooks promptId model system tools messages
          response toolCalls st
        (step.2.2, [], usage, step.2.1, .error clientExhausted)
      else (st, [], usage, toolCalls, .ok response)
  | entry :: rest, messages, response, usage, toolCalls, st =>
      if response.stopReason = some "tool_use" then
        let step := toolLoopStep handlers hooks promptId model system tools messages
          response toolCalls st
        match entry with
        | .error e => (step.2.2, rest, usage, step.2.1, .error e)
        | .ok response2 =>
            toolLoop handlers hooks promptId model system tools rest step.1 response2
              (aggregateTokenUsage [usage, response2.usage]) step.2.1 step.2.2
      else (st, entry :: rest, usage, toolCalls, .ok response)

/-- The tool definitions synthesized for the client: one per registered
handler name, with description `Tool: <name>` (and in the source the
constant empty object input schema); absent when no handler is
registered. -/
def mkTools (handlers : ToolHandlers) : Option (List Tool) :=
  if handlers.isEmpty then none
  else some (handlers.map fun p => { name := p.1, description := "Tool: " ++ p.1 })

/-- The catch block of `PromptInstance.run`: a caught failure becomes a
result with empty content, the usage and tool calls accumulated so far
and the error attached; the end event is still emitted. -/
def promptCatch (st : EvSt) (script : ClientScript) (promptId promptName : String)
    (usage : TokenUsage) (toolCalls : List ToolCallEvent) (e : Err) :
    EvSt × ClientScript × Except Err PromptResult :=
  let result : PromptResult :=
    { content := "", tokenUsage := usage, toolCalls := toolCalls, error := some e }
  let st := st.emit (.promptInstanceEnd promptId promptName true)
  (st, script, .ok result)

/-- Mirror of `PromptInstance.run` (with the constructor's id choice
inlined at the head).  The `beforeCall` hook runs before the protective
`try` block, so a throw from it escapes as `Except.error`; every later
failure is caught by `promptCatch`. -/
def PromptInstance.run (config : PromptConfig) (resolvedModel : String) (input : JVal)
    (handlers : ToolHandlers) (st : EvSt) (script : ClientScript) :
    EvSt × ClientScript × Except Err PromptResult :=
  let idSt : String × EvSt :=
    match config.id with
    | some i => (i, st)
    | none => (genId st.nextId, { st with nextId := st.nextId + 1 })
  let promptId := idSt.1
  let st := idSt.2
  match (match config.hooks.beforeCall with
         | some f => f input
         | none => .ok input) with
  | .error e => (st, script, .error e)
  | .ok processedInput =>
    let st := st.emit (.promptInstanceStart promptId config.name)
    let context : List (String × JVal) :=
      match processedInput with
      | .obj fields => fields
      | v => [("input", v)]
    let userContent := interpolate config.user context
    let systemContent := config.system.map (fun s => interpolate s context)
    let messages : List MessageParam := [⟨"user", .str userContent⟩]
    let tools := mkTools handlers
    let st := st.logSent { model := resolvedModel, maxTokens := 4096,
                           system := systemContent, messages := messages, tools := tools }
    match script with
    | [] => promptCatch st [] promptId config.name emptyTokenUsage [] clientExhausted
    | .error e :: rest => promptCatch st rest promptId config.name emptyTokenUsage [] e
    | .ok response :: rest =>
      let usage := aggregateTokenUsage [emptyTokenUsage, response.usage]
      let looped := toolLoop handlers config.hooks promptId resolvedModel systemContent
        tools rest messages response usage [] st
      let st := looped.1
      let script := looped.2.1
      let usage := looped.2.2.1
      let toolCalls := looped.2.2.2.1
      match looped.2.2.2.2 with
      | .error e => promptCatch st script promptId config.name usage toolCalls e
      | .ok finalResponse =>
        let textContent := String.intercalate "\n"
          (finalResponse.content.filterMap fun b =>
            match b with
            | .text t => some t
            | _ => none)
        let result : PromptResult :=
          { content := textContent, tokenUsage := usage, toolCalls := toolCalls }
        match (match config.hooks.afterCall with
               | some f => f result
               | none => .ok result) with
        | .error e => promptCatch st script promptId config.name usage toolCalls e
        | .ok result =>
          let st := st.emit (.promptInstanceEnd promptId config.name result.error.isSome)
          (st, script, .ok result)

/-! ## PromptInstance.runStreaming -/

/-- One event of the client's stream: a `content_block_delta` (whose
delta may or may not carry a string `text` field) or any other event
kind, which the executor ignores. -/
inductive StreamEvent where
  | contentBlockDelta (text : Option String)
  | otherKind
deriving Repr, DecidableEq

/-- The usage summary of the stream's final message. -/
structure FinalMessage where
  inputTokens : Nat
  outputTokens : Nat
deriving Repr, DecidableEq

/-- A scripted streaming client: the events the iteration sees (an
`Except.error` entry models the stream throwing mid-iteration, ending
it) and the outcome of `finalMessage()`. -/
structure StreamScript where
  events : List (Except Err StreamEvent)
  final : Except Err FinalMessage

/-- One value yielded by the streaming generator. -/
inductive StreamYield where
  | token (t : String)
  | result (r : PromptResult)
deriving Repr, DecidableEq

/-- The `for await` loop over the stream: each text delta is appended to
the growing buffer, emitted as a token event and yielded; a throw from
the stream stops the iteration there.  Returns the final state, the
grown buffer, the tokens yielded in order, and the error if the stream
threw. -/
def streamLoop (promptId : String) (st : EvSt) (fullContent : String) :
    List (Except Err StreamEvent) → EvSt × String × List String × Option Err
  | [] => (st, fullContent, [], none)
  | .error e :: _ => (st, fullContent, [], some e)
  | .ok (.contentBlockDelta (some t)) :: rest =>
      let st := st.emit (.promptTokenReceived promptId t)
      let out := streamLoop promptId st (fullContent ++ t) rest
      (out.1, out.2.1, t :: out.2.2.1, out.2.2.2)
  | .ok _ :: rest => streamLoop promptId st fullContent rest

/-- The catch block of `runStreaming`: the partial content streamed so
far is preserved on the error-carrying final result. -/
def streamCatch (st : EvSt) (promptId promptName : String) (fullContent : String)
    (usage : TokenUsage) (tokens : List String) (e : Err) :
    EvSt × Except Err (List StreamYield) :=
  let result : PromptResult :=
    { content := fullContent, tokenUsage := usage, toolCalls := [], error := some e }
  let st := st.emit (.promptInstanceEnd promptId promptName true)
  (st, .ok (tokens.map .token ++ [.result result]))

/-- Mirror of `PromptInstance.runStreaming`: the sequence of values the
generator yields (tokens, then one final result).  Tool calls are not
supported while streaming; the `beforeCall` hook again runs before the
protective `try`, so a throw from it escapes. -/
def PromptInstance.runStreaming (config : PromptConfig) (resolvedModel : String)
    (input : JVal) (st : EvSt) (stream : StreamScript) :
    EvSt × Except Err (List StreamYield) :=
  let idSt : String × EvSt :=
    match config.id with
    | some i => (i, st)
    | none => (genId st.nextId, { st with nextId := st.nextId + 1 })
  let promptId := idSt.1
  let st := idSt.2
  match (match config.hooks.beforeCall with
         | some f => f input
         | none => .ok input) with
  | .error e => (st, .error e)
  | .ok processedInput =>
    let st := st.emit (.promptInstanceStart promptId config.name)
    let context : List (String × JVal) :=
      match processedInput with
      | .obj fields => fields
      | v => [("input", v)]
    let userContent := interpolate config.user context
    let systemContent := config.system.map (fun s => interpolate s context)
    let st := st.logSent { model := resolvedModel, maxTokens := 4096,
                           system := systemContent,
                           messages := [⟨"user", .str userContent⟩], tools := none }
    let looped := streamLoop promptId st "" stream.events
    let st := looped.1
    let fullContent := looped.2.1
    let tokens := looped.2.2.1
    match looped.2.2.2 with
    | some e => streamCatch st promptId config.name fullContent emptyTokenUsage tokens e
    | none =>
      match stream.final with
      | .error e => streamCatch st promptId config.name fullContent emptyTokenUsage tokens e
      | .ok finalMessage =>
        let usage : TokenUsage :=
          { inputTokens := finalMessage.inputTokens
            outputTokens := finalMessage.outputTokens }
        let result : PromptResult :=
          { content := fullContent, tokenUsage := usage, toolCalls := [] }
        match (match config.hooks.afterCall with
               | some f => f result
               | none => .ok result) with
        | .error e => streamCatch st promptId config.name fullContent usage tokens e
        | .ok finalResult =>
          let st := st.emit
            (.promptInstanceEnd promptId config.name finalResult.error.isSome)
          (st, .ok (tokens.map .token ++ [.result finalResult]))

/-! ## Agent (src/core/agent.ts) -/

/-- Mirror of the `ToolDefinition` entries of `AgentConfig.tools` (the
input schema carries no behavior in the executor and is dropped). -/
structure ToolDefinition where
  name : String
  description : String
deriving Repr, DecidableEq

/-- Mirror of the reflection metadata on `AgentRunResult`. -/
structure ReflectionMetadata where
  originalError : Err
  reflectionPromptId : String
  reflectionResult : PromptResult
deriving Repr, DecidableEq

/-- Mirror of `AgentRunResult` (`totalDuration` is outside the model). -/
structure AgentRunResult where
  promptResults : List PromptResult
  tokenUsage : TokenUsage
  retryCount : Nat
  reflectionMetadata : Option ReflectionMetadata := none
  error : Option Err := none
deriving Repr, DecidableEq

/-- Mirror of `AgentHooks`; a hook returning `Except.error` models a
hook that throws. -/
structure AgentHooks where
  beforeRun : Option (JVal → Except Err JVal) := none
  afterRun : Option (AgentRunResult → Except Err AgentRunResult) := none
  beforePrompt : Option (PromptConfig → JVal → Except Err JVal) := none
  afterPrompt : Option (PromptConfig → PromptResult → Except Err PromptResult) := none
  onError : Option (Err → Except Err Unit) := none
  onReflection : Option (PromptResult → PromptResult → Except Err Unit) := none

/-- Mirror of `AgentConfig` for the fields the executor reads
(`enableCache` is never read). -/
structure AgentConfig where
  id : Option String := none
  name : String
  model : Option String := none
  prompts : List PromptConfig
  tools : Option (List ToolDefinition) := none
  enableReflection : Option Bool := none
  maxRetries : Option Nat := none
  hooks : AgentHooks := {}

/-- Mirror of `Agent.resolveModel`:
`promptModel ?? this.config.model ?? this.parentModel`, throwing when
all three are absent. -/
def Agent.resolveModel (promptModel agentModel parentModel : Option String) :
    Except Err String :=
  match promptModel.orElse fun _ => agentModel.orElse fun _ => parentModel with
  | some m => .ok m
  | none => .error "No model configured. Specify model on prompt, agent, or workflow."

/-- Mirror of `DEFAULT_REFLECTION_PROMPT`. -/
def DEFAULT_REFLECTION_PROMPT : PromptConfig :=
  { name := "reflection"
    system := some ("You are a helpful assistant tasked with analyzing a failed response and providing a corrected version.\nAnalyze the error and the original output, then provide a corrected response.")
    user := "Original prompt: \x7b\x7boriginalPrompt\x7d\x7d\n\nOriginal response: \x7b\x7boriginalResult\x7d\x7d\n\nError: \x7b\x7berror\x7d\x7d\n\nPlease provide a corrected response that addresses the error." }

/-- Mirror of `Agent.reflect` at its only call site (no override model).
The helper stands for code that reads `this.config`; it takes exactly
the fields it reads (the agent's default model and `onReflection`
hook).  Emit `reflectionStart`, run the built-in reflection prompt as
its own `PromptInstance` (with no tool handlers), emit `reflectionEnd`,
invoke the `onReflection` hook.  A throw from the nested run, from
model resolution or from the hook escapes into `Agent.run`'s catch. -/
def Agent.reflect (agentModel : Option String) (parentModel : Option String)
    (onReflection : Option (PromptResult → PromptResult → Except Err Unit))
    (agentId : String) (originalUser : String) (failedResult : PromptResult)
    (st : EvSt) (script : ClientScript) :
    EvSt × ClientScript × Except Err PromptResult :=
  let st := st.emit (.reflectionStart agentId)
  match Agent.resolveModel none agentModel parentModel with
  | .error e => (st, script, .error e)
  | .ok model =>
    let input : JVal := .obj
      [("originalPrompt", .str originalUser),
       ("originalResult", .str failedResult.content),
       ("error", .str (match failedResult.error with
                       | some e => e
                       | none => "undefined"))]
    let run := PromptInstance.run DEFAULT_REFLECTION_PROMPT model input [] st script
    match run.2.2 with
    | .error e => (run.1, run.2.1, .error e)
    | .ok result =>
      let st := (run.1).emit (.reflectionEnd agentId)
      match (match onReflection with
             | some f => f failedResult result
             | none => .ok ()) with
      | .error e => (st, run.2.1, .error e)
      | .ok _ => (st, run.2.1, .ok result)

/-- The per-prompt retry loop of `Agent.run`, written do-while style:
`budget` is the number of additional attempts still allowed after the
current one (`maxRetries` on entry, so the source guard
`attempts <= maxRetries` after a failure is `0 < budget`), and
`attempts` is the source's failed-attempt counter, incremented exactly
once per failed attempt in lockstep with the agent-wide `retryCount`.
Returns the final attempt count, the reflection metadata if a
reflection was adopted, and either the prompt's result or an escaped
exception. -/
def retryLoop (agentModel : Option String) (enableReflection : Option Bool)
    (hooks : AgentHooks) (parentModel : Option String) (agentId : String)
    (promptCfg : PromptConfig) (promptInput : JVal) (handlers : ToolHandlers) :
    Nat → Nat → EvSt → ClientScript →
    EvSt × ClientScript × Nat × Option ReflectionMetadata × Except Err PromptResult
  | budget, attempts, st, script =>
    match Agent.resolveModel promptCfg.model agentModel parentModel with
    | .error e => (st, script, attempts, none, .error e)
    | .ok model =>
      let instId := match promptCfg.id with
                    | some i => i
                    | none => genId st.nextId
      let run := PromptInstance.run promptCfg model promptInput handlers st script
      match run.2.2 with
      | .error e => (run.1, run.2.1, attempts, none, .error e)
      | .ok result =>
        match result.error with
        | none => (run.1, run.2.1, attempts, none, .ok result)
        | some resultErr =>
          let st := run.1
          let script := run.2.1
          let attempts := attempts + 1
          match (match hooks.onError with
                 | some f => f resultErr
                 | none => .ok ()) with
          | .error e => (st, script, attempts, none, .error e)
          | .ok _ =>
            match budget with
            | 0 => (st, script, attempts, none, .ok result)
            | b + 1 =>
              if enableReflection = some true then
                let refl := Agent.reflect agentModel parentModel hooks.onReflection
                  agentId promptCfg.user result st script
                match refl.2.2 with
                | .error e => (refl.1, refl.2.1, attempts, none, .error e)
                | .ok reflectionResult =>
                  match reflectionResult.error with
                  | none =>
                      (refl.1, refl.2.1, attempts,
                       some { originalError := resultErr, reflectionPromptId := instId,
                              reflectionResult := reflectionResult },
                       .ok reflectionResult)
                  | some _ =>
                      retryLoop agentModel enableReflection hooks parentModel agentId
                        promptCfg promptInput handlers b attempts refl.1 refl.2.1
              else
                retryLoop agentModel enableReflection hooks parentModel agentId
                  promptCfg promptInput handlers b attempts st script

/-- Accumulated outcome of the prompt sequence of one `Agent.run`:
the results pushed so far, the agent-wide retry counter, the last
recorded reflection metadata, and the exception, if one was thrown
inside the `try` block (to be handled by the agent's catch). -/
structure PromptsLoopOut where
  results : List PromptResult
  retryCount : Nat
  reflectionMetadata : Option ReflectionMetadata
  thrown : Option Err

/-- The `for (const promptConfig of this.config.prompts)` loop of
`Agent.run`: apply `beforePrompt`, run the retry loop, apply
`afterPrompt`, push the result, and abort the remaining prompts when
the final result still carries an error with the retry budget
exhausted (`retryCount > maxRetries`). -/
def promptsLoop (agentModel : Option String) (enableReflection : Option Bool)
    (hooks : AgentHooks) (parentModel : Option String) (agentId : String)
    (handlers : ToolHandlers) (processedInput : JVal) (maxRetries : Nat) :
    List PromptConfig → List PromptResult → Nat → Option ReflectionMetadata →
    EvSt → ClientScript → EvSt × ClientScript × PromptsLoopOut
  | [], acc, retryCount, meta, st, script =>
      (st, script, ⟨acc, retryCount, meta, none⟩)
  | promptCfg :: rest, acc, retryCount, meta, st, script =>
      match (match hooks.beforePrompt with
             | some f => f promptCfg processedInput
             | none => .ok processedInput) with
      | .error e => (st, script, ⟨acc, retryCount, meta, some e⟩)
      | .ok promptInput =>
        let loop := retryLoop agentModel enableReflection hooks parentModel agentId
                      promptCfg promptInput handlers maxRetries 0 st script
        let st := loop.1
        let script := loop.2.1
        let retryCount := retryCount + loop.2.2.1
        let meta := match loop.2.2.2.1 with
                    | some m => some m
                    | none => meta
        match loop.2.2.2.2 with
        | .error e => (st, script, ⟨acc, retryCount, meta, some e⟩)
        | .ok result =>
          match (match hooks.afterPrompt with
                 | some f => f promptCfg result
                 | none => .ok result) with
          | .error e => (st, script, ⟨acc, retryCount, meta, some e⟩)
          | .ok result =>
            let acc := acc ++ [result]
            if result.error.isSome ∧ retryCount > maxRetries then
              (st, script, ⟨acc, retryCount, meta, none⟩)
            else
              promptsLoop agentModel enableReflection hooks parentModel agentId handlers
                processedInput maxRetries rest acc retryCount meta st script

/-- The catch block of `Agent.run`: invoke `onError` (a throw from it
escapes `Agent.run`), build a result carrying the prompt results pushed
so far, the aggregated usage, the retry count and the caught error,
emit `agentRunEnd`, and return normally. -/
def agentCatch (onError : Option (Err → Except Err Unit)) (agentId agentName : String)
    (results : List PromptResult) (retryCount : Nat) (e : Err)
    (st : EvSt) (script : ClientScript) :
    EvSt × ClientScript × Except Err AgentRunResult :=
  match (match onError with
         | some f => f e
         | none => .ok ()) with
  | .error e2 => (st, script, .error e2)
  | .ok _ =>
    let result : AgentRunResult :=
      { promptResults := results
        tokenUsage := aggregateTokenUsage (results.map (fun r => r.tokenUsage))
        retryCount := retryCount
        error := some e }
    let st := st.emit (.agentRunEnd agentId agentName)
    (st, script, .ok result)

/-- Mirror of `Agent.run` (with the constructor's id choice inlined at
the head).  The `beforeRun` hook runs before the protective `try`
block, so a throw from it escapes as `Except.error`; every exception
thrown inside the `try` block is routed to `agentCatch`. -/
def Agent.run (config : AgentConfig) (parentModel : Option String)
    (handlers : ToolHandlers) (input : JVal) (st : EvSt) (script : ClientScript) :
    EvSt × ClientScript × Except Err AgentRunResult :=
  let idSt : String × EvSt :=
    match config.id with
    | some i => (i, st)
    | none => (genId st.nextId, { st with nextId := st.nextId + 1 })
  let agentId := idSt.1
  let st := idSt.2
  let maxRetries := config.maxRetries.getD 0
  match (match config.hooks.beforeRun with
         | some f => f input
         | none => .ok input) with
  | .error e => (st, script, .error e)
  | .ok processedInput =>
    let st := st.emit (.agentRunStart agentId config.name)
    let loop := promptsLoop config.model config.enableReflection config.hooks parentModel
                  agentId handlers processedInput maxRetries config.prompts [] 0 none st script
    let st := loop.1
    let script := loop.2.1
    let out := loop.2.2
    match out.thrown with
    | some e =>
        agentCatch config.hooks.onError agentId config.name out.results out.retryCount
          e st script
    | none =>
        let result : AgentRunResult :=
          { promptResults := out.results
            tokenUsage := aggregateTokenUsage (out.results.map (fun r => r.tokenUsage))
            retryCount := out.retryCount
            reflectionMetadata := out.reflectionMetadata
            error := (out.results.find? (fun r => r.error.isSome)).bind (fun r => r.error) }
        match (match config.hooks.afterRun with
               | some f => f result
               | none => .ok result) with
        | .error e =>
            agentCatch config.hooks.onError agentId config.name out.results out.retryCount
              e st script
        | .ok result =>
          let st := st.emit (.agentRunEnd agentId config.name)
          (st, script, .ok result)

/-! ## AgentWorkflow (src/core/agent-workflow.ts portion of core/agent.ts) -/

/-- Mirror of `WorkflowStepConfig`. -/
structure WorkflowStepConfig where
  id : Option String := none
  name : Option String := none
  agents : List AgentConfig

/-- Mirror of `AgentWorkflowConfig` for the fields the executor reads. -/
structure AgentWorkflowConfig where
  name : Option String := none
  steps : List WorkflowStepConfig
  defaultModel : Option String := none

/-- Mirror of `StepRunResult` (`duration` is outside the model). -/
structure StepRunResult where
  stepName : String
  agentResults : List AgentRunResult
deriving Repr, DecidableEq

/-- Modelled from the spec: the status state machine of the `Workflow`
base class (`src/core/workflow.ts` is not part of the given sources);
per §4.3 the states are idle → running → completed | failed |
cancelled, and `setStatus` overwrites the current state, so a run's
final status is the last value set along its execution path. -/
inductive WorkflowStatus where
  | idle
  | running
  | completed
  | failed
  | cancelled
deriving Repr, DecidableEq

/-- Mirror of `WorkflowRunResult` (`totalDuration` is outside the
model). -/
structure WorkflowRunResult where
  stepResults : List StepRunResult
  tokenUsage : TokenUsage
  error : Option Err := none
deriving Repr, DecidableEq

/-- The agent loop of `AgentWorkflow.executeStep`: run each agent of
the step in order against the step input, collect its result, and stop
on the first result that carries an error.  An exception escaping
`Agent.run` aborts the loop and propagates (dropping the collected
results, which are local to `executeStep`). -/
def stepAgentsLoop (wcfg : AgentWorkflowConfig) (handlers : ToolHandlers) (input : JVal) :
    List AgentConfig → List AgentRunResult → EvSt → ClientScript →
    EvSt × ClientScript × Except Err (List AgentRunResult)
  | [], acc, st, script => (st, script, .ok acc)
  | agentCfg :: rest, acc, st, script =>
      let run := Agent.run agentCfg wcfg.defaultModel handlers input st script
      match run.2.2 with
      | .error e => (run.1, run.2.1, .error e)
      | .ok result =>
          let acc := acc ++ [result]
          if result.error.isSome then (run.1, run.2.1, .ok acc)
          else stepAgentsLoop wcfg handlers input rest acc run.1 run.2.1

/-- Mirror of `AgentWorkflow.executeStep`: emit `stepStart`, run the
agents with fail-fast, emit `stepEnd` (still emitted when an agent
result carried an error, but not when an exception escaped an agent
run), and return the step result with the partial agent results
collected so far. -/
def AgentWorkflow.executeStep (wcfg : AgentWorkflowConfig) (handlers : ToolHandlers)
    (step : WorkflowStepConfig) (input : JVal) (st : EvSt) (script : ClientScript) :
    EvSt × ClientScript × Except Err StepRunResult :=
  let stepName := step.name.getD ("step-" ++ step.id.getD "unknown")
  let st := st.emit (.stepStart stepName)
  let loop := stepAgentsLoop wcfg handlers input step.agents [] st script
  match loop.2.2 with
  | .error e => (loop.1, loop.2.1, .error e)
  | .ok agentResults =>
      let st := (loop.1).emit (.stepEnd stepName)
      (st, loop.2.1, .ok { stepName := stepName, agentResults := agentResults })

/-- The step loop of `AgentWorkflow.run`: run steps in declared order,
aggregate usage, and on the first step whose agent results include an
error set status failed and return immediately; the catch block turns
an exception escaping step execution into status failed and an
error-carrying result with the step results collected so far. -/
def workflowStepsLoop (wcfg : AgentWorkflowConfig) (handlers : ToolHandlers)
    (input : JVal) :
    List WorkflowStepConfig → List StepRunResult → TokenUsage → EvSt → ClientScript →
    EvSt × ClientScript × WorkflowStatus × WorkflowRunResult
  | [], acc, usage, st, script =>
      (st, script, .completed, { stepResults := acc, tokenUsage := usage })
  | step :: rest, acc, usage, st, script =>
      let run := AgentWorkflow.executeStep wcfg handlers step input st script
      match run.2.2 with
      | .error e =>
          (run.1, run.2.1, .failed,
           { stepResults := acc, tokenUsage := usage, error := some e })
      | .ok stepResult =>
          let acc := acc ++ [stepResult]
          let usage := stepResult.agentResults.foldl
            (fun u r => aggregateTokenUsage [u, r.tokenUsage]) usage
          match (stepResult.agentResults.find? (fun r => r.error.isSome)).bind
                (fun r => r.error) with
          | some stepError =>
              (run.1, run.2.1, .failed,
               { stepResults := acc, tokenUsage := usage, error := some stepError })
          | none => workflowStepsLoop wcfg handlers input rest acc usage run.1 run.2.1

/-- Mirror of `AgentWorkflow.run`: set status running, run the steps,
and end with status completed, or status failed together with the
first error.  The function returns a plain result: no exception
channel remains, matching the source's outermost try/catch. -/
def AgentWorkflow.run (wcfg : AgentWorkflowConfig) (handlers : ToolHandlers)
    (input : JVal) (st : EvSt) (script : ClientScript) :
    EvSt × ClientScript × WorkflowStatus × WorkflowRunResult :=
  workflowStepsLoop wcfg handlers input wcfg.steps [] emptyTokenUsage st script

/-! ## Concrete scenarios used by the theorems -/

/-- A registered tool-handler map with one `echo` handler. -/
def c2Handlers : ToolHandlers := [("echo", fun s => .ok ("out:" ++ s))]

/-- A plain prompt with no hooks. -/
def c2Prompt : PromptConfig := { name := "p", user := "hi" }

/-- First mocked reply: requests tool use, one `echo` call on "a". -/
def c2R1 : Response :=
  { content := [.toolUse "tu1" "echo" "a", .text "x"],
    stopReason := some "tool_use",
    usage := { inputTokens := 1, outputTokens := 2 } }

/-- Second mocked reply: requests tool use, one `echo` call on "b". -/
def c2R2 : Response :=
  { content := [.toolUse "tu2" "echo" "b"],
    stopReason := some "tool_use",
    usage := { inputTokens := 3, outputTokens := 4 } }

/-- Third mocked reply: done. -/
def c2R3 : Response :=
  { content := [.text "done"],
    stopReason := some "end_turn",
    usage := { inputTokens := 5, outputTokens := 6 } }

/-- The mocked client script: tool use twice, then done. -/
def c2Script : ClientScript := [.ok c2R1, .ok c2R2, .ok c2R3]

/-- A prompt whose `beforeCall` hook throws. -/
def c1Prompt : PromptConfig :=
  { name := "p", user := "u",
    hooks := { beforeCall := some (fun _ => .error "boom") } }

/-- An agent whose `beforeRun` hook throws. -/
def c1Agent : AgentConfig :=
  { name := "a", model := some "m", prompts := [{ name := "p", user := "u" }],
    hooks := { beforeRun := some (fun _ => .error "boom") } }

/-- A streaming script that fails mid-stream after one delta. -/
def c10FailStream : StreamScript :=
  { events := [.ok (.contentBlockDelta (some "par")), .error "boom"],
    final := .ok { inputTokens := 2, outputTokens := 3 } }

/-- A streaming script with two deltas and a clean finish. -/
def c10OkStream : StreamScript :=
  { events := [.ok (.contentBlockDelta (some "he")), .ok .otherKind,
               .ok (.contentBlockDelta (some "llo"))],
    final := .ok { inputTokens := 2, outputTokens := 3 } }

/-- The events a prompt execution may publish. -/
def promptLevelEvent : WorkflowEvent → Bool
  | .promptInstanceStart _ _ => true
  | .promptInstanceEnd _ _ _ => true
  | .toolCallStart _ _ _ => true
  | .toolCallEnd _ _ _ => true
  | .promptTokenReceived _ _ => true
  | _ => false

/-- The events the inside of one agent run may publish (prompt-level
plus the reflection bracket). -/
def agentInternalEvent (e : WorkflowEvent) : Bool :=
  promptLevelEvent e ||
    (match e with
     | .reflectionStart _ => true
     | .reflectionEnd _ => true
     | _ => false)

/-- Recognizer for `reflectionStart` events. -/
def isReflectionStart : WorkflowEvent → Bool
  | .reflectionStart _ => true
  | _ => false

/-- Recognizer for `promptInstanceStart` events of a given prompt name. -/
def isPromptStartNamed (name : String) : WorkflowEvent → Bool
  | .promptInstanceStart _ n => n == name
  | _ => false

/-- Number of `reflectionStart` events in a trace. -/
def countReflectionStarts (evs : List WorkflowEvent) : Nat :=
  evs.countP isReflectionStart

/-- Number of `promptInstanceStart` events of a given prompt name in a
trace. -/
def countPromptStarts (name : String) (evs : List WorkflowEvent) : Nat :=
  evs.countP (isPromptStartNamed name)

/-- Between two execution states, the event trace grew by a suffix all
of whose events satisfy `P`. -/
def EventsDelta (P : WorkflowEvent → Bool) (a b : EvSt) : Prop :=
  ∃ d, b.events = a.events ++ d ∧ ∀ e ∈ d, P e

/-- The agent scenario of the reflection-bound property: one plain
prompt, `maxRetries = 1`, reflection enabled, no hooks. -/
def c4Agent : AgentConfig :=
  { name := "a", model := some "m", prompts := [{ name := "p", user := "hi" }],
    enableReflection := some true, maxRetries := some 1 }

/-- First agent of the fail-fast scenario step. -/
def c6AgentA : AgentConfig :=
  { name := "alpha", model := some "m", prompts := [{ name := "p", user := "hi" }] }

/-- Second agent of the fail-fast scenario step; it must never run. -/
def c6AgentB : AgentConfig :=
  { name := "beta", model := some "m", prompts := [{ name := "q", user := "yo" }] }

/-- A step named `s1` with two agents. -/
def c6Step : WorkflowStepConfig := { name := some "s1", agents := [c6AgentA, c6AgentB] }

/-- The one-step workflow of the fail-fast scenario. -/
def c6Wcfg : AgentWorkflowConfig := { steps := [c6Step] }

/-- Mocked client behavior: the single call fails with `boom1`. -/
def c6Script1 : ClientScript := [.error "boom1"]

/-- Same behavior with a different failure message, `boom2`. -/
def c6Script2 : ClientScript := [.error "boom2"]

/-- A plain successful response used by the error-free scenario. -/
def c6OkResp : Response :=
  { content := [.text "done"], stopReason := some "end_turn",
    usage := { inputTokens := 1, outputTokens := 1 } }

/-- Mocked client behavior on which both agents of the step succeed. -/
def c6OkScript : ClientScript := [.ok c6OkResp, .ok c6OkResp]

/-- A plain successful response for the ordering scenario. -/
def c8Resp : Response :=
  { content := [.text "ok"], stopReason := some "end_turn",
    usage := { inputTokens := 1, outputTokens := 1 } }

/-- The single agent of the first ordering-scenario step. -/
def c8A1 : AgentConfig :=
  { name := "a1", model := some "m", prompts := [{ name := "p1", user := "x" }] }

/-- The single agent of the second ordering-scenario step. -/
def c8A2 : AgentConfig :=
  { name := "a2", model := some "m", prompts := [{ name := "p2", user := "y" }] }

/-- First step: one agent. -/
def c8Step1 : WorkflowStepConfig := { name := some "s1", agents := [c8A1] }

/-- Second step: one agent. -/
def c8Step2 : WorkflowStepConfig := { name := some "s2", agents := [c8A2] }

/-- The 2-steps-of-1-agent workflow of the ordering scenario. -/
def c8Wcfg : AgentWorkflowConfig := { steps := [c8Step1, c8Step2] }

/-- Mocked client behavior: both prompt calls succeed at once. -/
def c8Script : ClientScript := [.ok c8Resp, .ok c8Resp]

/-! ## Theorems -/

/-- Helper: `emit` only touches the event list. -/
theorem EvSt.sent_emit (st : EvSt) (e : WorkflowEvent) : (st.emit e).sent = st.sent := rfl

/-- Helper: running the tool-use blocks of a response never contacts the
model client. -/
theorem processBlocks_sent (handlers : ToolHandlers) (hooks : PromptHooks)
    (promptId : String) :
    ∀ (blocks : List ContentBlock) (st : EvSt),
      (processBlocks handlers hooks promptId st blocks).1.sent = st.sent := by
  intro blocks
  induction blocks with
  | nil => intro st; rfl
  | cons b rest ih =>
      intro st
      cases b with
      | text t => exact ih st
      | toolUse blockId name input =>
          simp only [processBlocks]
          rw [ih]
          rfl

/-- Helper: one loop iteration hands exactly one follow-up request to
the client and contacts it no further. -/
theorem toolLoopStep_sent_length (handlers : ToolHandlers) (hooks : PromptHooks)
    (promptId model : String) (system : Option String) (tools : Option (List Tool))
    (messages : List MessageParam) (response : Response)
    (toolCalls : List ToolCallEvent) (st : EvSt) :
    (toolLoopStep handlers hooks promptId model system tools messages response
      toolCalls st).2.2.sent.length = st.sent.length + 1 := by
  simp [toolLoopStep, EvSt.logSent, processBlocks_sent]

/-- Helper: the tool loop stops at once, with no further client call,
when the stop reason is not tool use. -/
theorem toolLoop_exit (handlers : ToolHandlers) (hooks : PromptHooks)
    (promptId model : String) (system : Option String) (tools : Option (List Tool))
    (script : ClientScript) (messages : List MessageParam) (resp : Response)
    (usage : TokenUsage) (toolCalls : List ToolCallEvent) (st : EvSt)
    (h : resp.stopReason ≠ some "tool_use") :
    toolLoop handlers hooks promptId model system tools script messages resp usage
      toolCalls st = (st, script, usage, toolCalls, .ok resp) := by
  cases script <;> (rw [toolLoop]; simp [h])

/-- Helper: a run of the tool loop on a chain of `tool_use` responses
followed by one non-`tool_use` response makes exactly one client call
per chain entry plus the final one... precisely: it sends `chain.length
+ 1` further requests, leaves the remaining script at `post`, and
returns the final response. -/
theorem toolLoop_chain (handlers : ToolHandlers) (hooks : PromptHooks)
    (promptId model : String) (system : Option String) (tools : Option (List Tool)) :
    ∀ (chain : List Response) (resp : Response) (r : Response) (post : ClientScript)
      (messages : List MessageParam) (usage : TokenUsage)
      (toolCalls : List ToolCallEvent) (st : EvSt),
      (∀ x ∈ chain, x.stopReason = some "tool_use") →
      resp.stopReason = some "tool_use" →
      r.stopReason ≠ some "tool_use" →
      (toolLoop handlers hooks promptId model system tools
          (chain.map .ok ++ .ok r :: post) messages resp usage toolCalls st).1.sent.length
        = st.sent.length + (chain.length + 1) ∧
      (toolLoop handlers hooks promptId model system tools
          (chain.map .ok ++ .ok r :: post) messages resp usage toolCalls st).2.1 = post ∧
      (toolLoop handlers hooks promptId model system tools
          (chain.map .ok ++ .ok r :: post) messages resp usage toolCalls st).2.2.2.2
        = .ok r := by
  intro chain
  induction chain with
  | nil =>
      intro resp r post messages usage toolCalls st hchain hresp hr
      simp only [List.map_nil, List.nil_append, toolLoop, hresp, reduceIte]
      rw [toolLoop_exit _ _ _ _ _ _ _ _ _ _ _ _ hr]
      refine ⟨?_, rfl, rfl⟩
      rw [toolLoopStep_sent_length]
      simp
  | cons c chain ih =>
      intro resp r post messages usage toolCalls st hchain hresp hr
      have hc : c.stopReason = some "tool_use" := hchain c (by simp)
      have H := fun m u t s => ih c r post m u t s
        (fun x hx => hchain x (List.mem_cons_of_mem _ hx)) hc hr
      simp only [List.map_cons, List.cons_append, toolLoop, hresp, reduceIte]
      simp only [List.append_eq]
      refine ⟨?_, ?_, ?_⟩
      · rw [(H _ _ _ _).1, toolLoopStep_sent_length]
        simp only [List.length_cons]
        omega
      · rw [(H _ _ _ _).2.1]
      · rw [(H _ _ _ _).2.2]

/-- Helper: the request count never shrinks across the tool loop. -/
theorem toolLoop_sent_mono (handlers : ToolHandlers) (hooks : PromptHooks)
    (promptId model : String) (system : Option String) (tools : Option (List Tool)) :
    ∀ (script : ClientScript) (messages : List MessageParam) (resp : Response)
      (usage : TokenUsage) (toolCalls : List ToolCallEvent) (st : EvSt),
      st.sent.length ≤ (toolLoop handlers hooks promptId model system tools script
        messages resp usage toolCalls st).1.sent.length := by
  intro script
  induction script with
  | nil =>
      intro messages resp usage toolCalls st
      rw [toolLoop]
      by_cases h : resp.stopReason = some "tool_use" <;>
        simp [h, toolLoopStep_sent_length]
  | cons entry rest ih =>
      intro messages resp usage toolCalls st
      rw [toolLoop]
      by_cases h : resp.stopReason = some "tool_use"
      · simp only [h, reduceIte]
        cases entry with
        | error e => simp [toolLoopStep_sent_length]
        | ok r2 =>
            refine le_trans ?_ (ih _ _ _ _ _)
            rw [toolLoopStep_sent_length]
            omega
      · simp [h]

/-- Helper: a tool-use stop reason always costs at least one further
client call. -/
theorem toolLoop_step_calls (handlers : ToolHandlers) (hooks : PromptHooks)
    (promptId model : String) (system : Option String) (tools : Option (List Tool))
    (script : ClientScript) (messages : List MessageParam) (resp : Response)
    (usage : TokenUsage) (toolCalls : List ToolCallEvent) (st : EvSt)
    (h : resp.stopReason = some "tool_use") :
    st.sent.length + 1 ≤ (toolLoop handlers hooks promptId model system tools script
      messages resp usage toolCalls st).1.sent.length := by
  cases script with
  | nil =>
      rw [toolLoop]
      simp [h, toolLoopStep_sent_length]
  | cons entry rest =>
      rw [toolLoop]
      simp only [h, reduceIte]
      cases entry with
      | error e => simp [toolLoopStep_sent_length]
      | ok r2 =>
          refine le_trans ?_ (toolLoop_sent_mono _ _ _ _ _ _ _ _ _ _ _ _)
          rw [toolLoopStep_sent_length]

/-- Helper: a hook-free prompt run against a script of m tool-use
responses followed by one final response makes exactly m+1 client calls
and returns an error-free result. -/
theorem promptRun_calls (cfg : PromptConfig) (model : String) (input : JVal)
    (handlers : ToolHandlers) (st : EvSt) (chain : List Response) (r : Response)
    (post : ClientScript)
    (hhooks : cfg.hooks = {})
    (hchain : ∀ x ∈ chain, x.stopReason = some "tool_use")
    (hr : r.stopReason ≠ some "tool_use") :
    ((PromptInstance.run cfg model input handlers st
        (chain.map .ok ++ .ok r :: post)).1.sent.length
      = st.sent.length + (chain.length + 1)) ∧
    ∃ res, (PromptInstance.run cfg model input handlers st
        (chain.map .ok ++ .ok r :: post)).2.2 = .ok res ∧ res.error = none := by
  cases chain with
  | nil =>
      cases hid : cfg.id <;>
        simp [PromptInstance.run, hhooks, hid, EvSt.logSent, EvSt.emit,
          toolLoop_exit _ _ _ _ _ _ _ _ _ _ _ _ hr]
  | cons c chain' =>
      have hc : c.stopReason = some "tool_use" := hchain c (by simp)
      have h' : ∀ x ∈ chain', x.stopReason = some "tool_use" :=
        fun x hx => hchain x (List.mem_cons_of_mem _ hx)
      cases hid : cfg.id <;>
      · simp only [PromptInstance.run, hhooks, hid, List.map_cons, List.cons_append]
        rw [(toolLoop_chain _ _ _ _ _ _ chain' c r post _ _ _ _ h' hc hr).2.2]
        dsimp only
        constructor
        · simp only [EvSt.sent_emit]
          rw [(toolLoop_chain _ _ _ _ _ _ chain' c r post _ _ _ _ h' hc hr).1]
          simp [EvSt.logSent, EvSt.emit, processBlocks_sent]
          omega
        · exact ⟨_, rfl, rfl⟩

/-- C2: the tool loop issues a further model call iff the previous
response's stop reason is `tool_use` (immediate exit otherwise, at
least one further call on tool use), a hook-free prompt run over m
tool-use responses then one final response makes exactly m+1 calls, and
in the mocked two-tool-use-then-done scenario exactly 3 model calls
happen and the recorded tool calls are exactly those arising from the
tool-use blocks of the first two responses. -/
theorem tool_loop_termination_spec :
    (∀ handlers hooks promptId model system tools script messages resp usage toolCalls st,
      resp.stopReason ≠ some "tool_use" →
      toolLoop handlers hooks promptId model system tools script messages resp usage
        toolCalls st = (st, script, usage, toolCalls, .ok resp)) ∧
    (∀ handlers hooks promptId model system tools script messages resp usage toolCalls st,
      resp.stopReason = some "tool_use" →
      st.sent.length + 1 ≤ (toolLoop handlers hooks promptId model system tools script
        messages resp usage toolCalls st).1.sent.length) ∧
    (∀ (cfg : PromptConfig) (model : String) (input : JVal) (handlers : ToolHandlers)
        (st : EvSt) (chain : List Response) (r : Response) (post : ClientScript),
      cfg.hooks = {} →
      (∀ x ∈ chain, x.stopReason = some "tool_use") →
      r.stopReason ≠ some "tool_use" →
      (PromptInstance.run cfg model input handlers st
          (chain.map .ok ++ .ok r :: post)).1.sent.length
        = st.sent.length + (chain.length + 1)) ∧
    ((PromptInstance.run c2Prompt "m" .null c2Handlers EvSt.initial c2Script).1.sent.length
        = 3 ∧
     (PromptInstance.run c2Prompt "m" .null c2Handlers EvSt.initial c2Script).2.2 = .ok
       { content := "done"
         tokenUsage := { inputTokens := 9, outputTokens := 12 }
         toolCalls :=
           [{ id := "id-1", toolName := "echo", input := "a", output := some "out:a",
              error := none, parentPromptId := "id-0" },
            { id := "id-2", toolName := "echo", input := "b", output := some "out:b",
              error := none, parentPromptId := "id-0" }] }) := by
  refine ⟨?_, ?_, ?_, by decide, by rfl⟩
  · intro handlers hooks promptId model system tools script messages resp usage toolCalls st h
    exact toolLoop_exit handlers hooks promptId model system tools script messages resp
      usage toolCalls st h
  · intro handlers hooks promptId model system tools script messages resp usage toolCalls st h
    exact toolLoop_step_calls handlers hooks promptId model system tools script messages
      resp usage toolCalls st h
  · intro cfg model input handlers st chain r post hhooks hchain hr
    exact (promptRun_calls cfg model input handlers st chain r post hhooks hchain hr).1

/-- Helper: every request the tool loop hands to the client carries the
`tools` argument the loop was started with. -/
theorem toolLoop_sent_tools (handlers : ToolHandlers) (hooks : PromptHooks)
    (promptId model : String) (system : Option String) (tools : Option (List Tool)) :
    ∀ (script : ClientScript) (messages : List MessageParam) (resp : Response)
      (usage : TokenUsage) (toolCalls : List ToolCallEvent) (st : EvSt)
      (r : MessageRequest),
      r ∈ (toolLoop handlers hooks promptId model system tools script messages resp
        usage toolCalls st).1.sent →
      r ∈ st.sent ∨ r.tools = tools := by
  intro script
  induction script with
  | nil =>
      intro messages resp usage toolCalls st r hr
      rw [toolLoop] at hr
      by_cases h : resp.stopReason = some "tool_use" <;>
        simp [h, toolLoopStep, EvSt.logSent, processBlocks_sent] at hr
      · rcases hr with hr | hr
        · exact .inl hr
        · exact .inr (by rw [hr])
      · exact .inl hr
  | cons entry rest ih =>
      intro messages resp usage toolCalls st r hr
      rw [toolLoop] at hr
      by_cases h : resp.stopReason = some "tool_use"
      · simp only [h, reduceIte] at hr
        cases entry with
        | error e =>
            simp [toolLoopStep, EvSt.logSent, processBlocks_sent] at hr
            rcases hr with hr | hr
            · exact .inl hr
            · exact .inr (by rw [hr])
        | ok r2 =>
            rcases ih _ _ _ _ _ r hr with hmem | htools
            · simp [toolLoopStep, EvSt.logSent, processBlocks_sent] at hmem
              rcases hmem with hmem | hmem
              · exact .inl hmem
              · exact .inr (by rw [hmem])
            · exact .inr htools
      · simp [h] at hr
        exact .inl hr

/-- Helper: every request a prompt run hands to the client carries the
tool definitions synthesized from the registered handler map. -/
theorem promptRun_sent_tools (cfg : PromptConfig) (model : String) (input : JVal)
    (handlers : ToolHandlers) (st : EvSt) (script : ClientScript)
    (r : MessageRequest)
    (hr : r ∈ (PromptInstance.run cfg model input handlers st script).1.sent) :
    r ∈ st.sent ∨ r.tools = mkTools handlers := by
  cases hcid : cfg.id <;>
  · simp only [PromptInstance.run, hcid] at hr
    rcases hbc : (match cfg.hooks.beforeCall with
                  | some f => f input
                  | none => .ok input) with e | pi <;>
      rw [hbc] at hr <;> dsimp only at hr
    · exact .inl hr
    · cases script with
      | nil =>
          simp [promptCatch, EvSt.logSent, EvSt.emit] at hr
          rcases hr with hr | hr
          · exact .inl hr
          · exact .inr (by rw [hr])
      | cons entry rest =>
          cases entry with
          | error e =>
              simp [promptCatch, EvSt.logSent, EvSt.emit] at hr
              rcases hr with hr | hr
              · exact .inl hr
              · exact .inr (by rw [hr])
          | ok resp =>
              dsimp only at hr
              split at hr <;>
                [skip;
                 split at hr]
              all_goals
                simp only [promptCatch, EvSt.sent_emit] at hr
                rcases toolLoop_sent_tools _ _ _ _ _ _ _ _ _ _ _ _ _ hr with hmem | ht
                · simp [EvSt.logSent, EvSt.emit] at hmem
                  rcases hmem with hmem | hmem
                  · exact .inl hmem
                  · exact .inr (by rw [hmem])
                · exact .inr ht

/-- C9: the `tools` field of `AgentConfig` has no effect on execution —
two runs whose configurations differ only in `tools` are identical
(results and emitted events alike) — and the tool definitions actually
sent to the model are synthesized solely from the names of the
registered handler map, each described as `Tool: <name>` (absent when
no handler is registered). -/
theorem tools_config_inert_spec :
    (∀ (cfg : AgentConfig) (t1 t2 : Option (List ToolDefinition))
        (parentModel : Option String) (handlers : ToolHandlers) (input : JVal)
        (st : EvSt) (script : ClientScript),
      Agent.run { cfg with tools := t1 } parentModel handlers input st script =
        Agent.run { cfg with tools := t2 } parentModel handlers input st script) ∧
    (∀ (cfg : PromptConfig) (model : String) (input : JVal) (handlers : ToolHandlers)
        (st : EvSt) (script : ClientScript) (r : MessageRequest),
      r ∈ (PromptInstance.run cfg model input handlers st script).1.sent →
      r ∈ st.sent ∨ r.tools = mkTools handlers) ∧
    (∀ handlers : ToolHandlers, handlers ≠ [] →
      ∃ ts, mkTools handlers = some ts ∧
        ts.map (fun t => t.name) = handlers.map (fun p => p.1) ∧
        ∀ t ∈ ts, t.description = "Tool: " ++ t.name) ∧
    (mkTools [] = none) := by
  refine ⟨fun cfg t1 t2 parentModel handlers input st script => rfl,
          promptRun_sent_tools, ?_, rfl⟩
  intro handlers hne
  have hne' : handlers.isEmpty = false := by
    cases handlers with
    | nil => exact absurd rfl hne
    | cons a l => rfl
  refine ⟨handlers.map (fun p => { name := p.1, description := "Tool: " ++ p.1 }),
          ?_, ?_, ?_⟩
  · simp [mkTools, hne']
  · simp
  · intro t ht
    rcases List.mem_map.mp ht with ⟨p, hp, rfl⟩
    rfl

/-- Witness for `tools_config_inert_spec`: the sent-tools conjunct
discharged at the first request of the mocked tool-call scenario. -/
theorem tools_config_inert_spec_witness :
    ({ model := "m", maxTokens := 4096, system := none,
       messages := [{ role := "user", content := .str "hi" }],
       tools := some [{ name := "echo", description := "Tool: echo" }] } : MessageRequest)
      ∈ EvSt.initial.sent ∨
    ({ model := "m", maxTokens := 4096, system := none,
       messages := [{ role := "user", content := .str "hi" }],
       tools := some [{ name := "echo", description := "Tool: echo" }] } : MessageRequest).tools
      = mkTools c2Handlers :=
  tools_config_inert_spec.2.1 c2Prompt "m" .null c2Handlers EvSt.initial c2Script _
    (by decide)

/-- Witness for `tool_loop_termination_spec`: the exact-call-count
conjunct discharged at the mocked scenario itself. -/
theorem tool_loop_termination_spec_witness :
    (PromptInstance.run c2Prompt "m" .null c2Handlers EvSt.initial
        (([c2R1, c2R2] : List Response).map .ok ++ .ok c2R3 :: [])).1.sent.length
      = EvSt.initial.sent.length + (([c2R1, c2R2] : List Response).length + 1) :=
  tool_loop_termination_spec.2.2.1 c2Prompt "m" .null c2Handlers EvSt.initial
    [c2R1, c2R2] c2R3 [] rfl (by decide) (by decide)

/-- Helper: the input-token field of the aggregation fold. -/
theorem foldl_addUsage_inputTokens (us : List TokenUsage) :
    ∀ acc : TokenUsage, (us.foldl addUsage acc).inputTokens =
      acc.inputTokens + (us.map (fun u => u.inputTokens)).sum := by
  induction us with
  | nil => intro acc; simp
  | cons u us ih =>
      intro acc
      simp only [List.foldl_cons, List.map_cons, List.sum_cons, ih, addUsage]
      omega

/-- Helper: the output-token field of the aggregation fold. -/
theorem foldl_addUsage_outputTokens (us : List TokenUsage) :
    ∀ acc : TokenUsage, (us.foldl addUsage acc).outputTokens =
      acc.outputTokens + (us.map (fun u => u.outputTokens)).sum := by
  induction us with
  | nil => intro acc; simp
  | cons u us ih =>
      intro acc
      simp only [List.foldl_cons, List.map_cons, List.sum_cons, ih, addUsage]
      omega

/-- Helper: one aggregation step populates the cache-creation field only
from an already-populated accumulator or a truthy contribution. -/
theorem addUsage_cacheCreation_isSome (acc u : TokenUsage)
    (h : (addUsage acc u).cacheCreationInputTokens.isSome) :
    acc.cacheCreationInputTokens.isSome ∨
      (∃ n, u.cacheCreationInputTokens = some n ∧ n ≠ 0) := by
  unfold addUsage at h
  cases hu : u.cacheCreationInputTokens with
  | none => simp [hu] at h; exact .inl h
  | some n =>
      by_cases hn : n = 0
      · simp [hu, hn] at h; exact .inl h
      · exact .inr ⟨n, rfl, hn⟩

/-- Helper: the aggregation fold populates the cache-creation field only
from an already-populated accumulator or a truthy contribution. -/
theorem foldl_addUsage_cacheCreation_isSome (us : List TokenUsage) :
    ∀ acc : TokenUsage, (us.foldl addUsage acc).cacheCreationInputTokens.isSome →
      acc.cacheCreationInputTokens.isSome ∨
        ∃ u ∈ us, ∃ n, u.cacheCreationInputTokens = some n ∧ n ≠ 0 := by
  induction us with
  | nil => intro acc h; exact .inl h
  | cons u us ih =>
      intro acc h
      rcases ih (addUsage acc u) h with h' | ⟨w, hw, n, hn, hnz⟩
      · rcases addUsage_cacheCreation_isSome acc u h' with h'' | ⟨n, hn, hnz⟩
        · exact .inl h''
        · exact .inr ⟨u, List.mem_cons_self u us, n, hn, hnz⟩
      · exact .inr ⟨w, List.mem_cons_of_mem u hw, n, hn, hnz⟩

/-- Helper: one aggregation step populates the cache-read field only
from an already-populated accumulator or a truthy contribution. -/
theorem addUsage_cacheRead_isSome (acc u : TokenUsage)
    (h : (addUsage acc u).cacheReadInputTokens.isSome) :
    acc.cacheReadInputTokens.isSome ∨
      (∃ n, u.cacheReadInputTokens = some n ∧ n ≠ 0) := by
  unfold addUsage at h
  cases hu : u.cacheReadInputTokens with
  | none => simp [hu] at h; exact .inl h
  | some n =>
      by_cases hn : n = 0
      · simp [hu, hn] at h; exact .inl h
      · exact .inr ⟨n, rfl, hn⟩

/-- Helper: the aggregation fold populates the cache-read field only
from an already-populated accumulator or a truthy contribution. -/
theorem foldl_addUsage_cacheRead_isSome (us : List TokenUsage) :
    ∀ acc : TokenUsage, (us.foldl addUsage acc).cacheReadInputTokens.isSome →
      acc.cacheReadInputTokens.isSome ∨
        ∃ u ∈ us, ∃ n, u.cacheReadInputTokens = some n ∧ n ≠ 0 := by
  induction us with
  | nil => intro acc h; exact .inl h
  | cons u us ih =>
      intro acc h
      rcases ih (addUsage acc u) h with h' | ⟨w, hw, n, hn, hnz⟩
      · rcases addUsage_cacheRead_isSome acc u h' with h'' | ⟨n, hn, hnz⟩
        · exact .inl h''
        · exact .inr ⟨u, List.mem_cons_self u us, n, hn, hnz⟩
      · exact .inr ⟨w, List.mem_cons_of_mem u hw, n, hn, hnz⟩

/-- C7: `aggregateTokenUsage` returns the element-wise sum of the
children's values (non-negative by construction over `Nat`), the
optional cache-token fields are present in the result only when at
least one contributor reports a truthy value for them, and the two
concrete examples of the spec hold:
`aggregate([\x7bin:100,out:50\x7d,\x7bin:200,out:100,cacheRead:5\x7d]) =
\x7bin:300,out:150,cacheRead:5\x7d` and `aggregate([]) = \x7bin:0,out:0\x7d`. -/
theorem token_aggregation_spec :
    (aggregateTokenUsage
        [{ inputTokens := 100, outputTokens := 50 },
         { inputTokens := 200, outputTokens := 100, cacheReadInputTokens := some 5 }] =
      { inputTokens := 300, outputTokens := 150, cacheReadInputTokens := some 5 }) ∧
    (aggregateTokenUsage [] = { inputTokens := 0, outputTokens := 0 }) ∧
    (∀ us : List TokenUsage,
      (aggregateTokenUsage us).inputTokens = (us.map (fun u => u.inputTokens)).sum ∧
      (aggregateTokenUsage us).outputTokens = (us.map (fun u => u.outputTokens)).sum) ∧
    (∀ us : List TokenUsage,
      ((aggregateTokenUsage us).cacheCreationInputTokens.isSome →
        ∃ u ∈ us, ∃ n, u.cacheCreationInputTokens = some n ∧ n ≠ 0) ∧
      ((aggregateTokenUsage us).cacheReadInputTokens.isSome →
        ∃ u ∈ us, ∃ n, u.cacheReadInputTokens = some n ∧ n ≠ 0)) := by
  refine ⟨by decide, by decide, fun us => ⟨?_, ?_⟩, fun us => ⟨?_, ?_⟩⟩
  · simpa using foldl_addUsage_inputTokens us { inputTokens := 0, outputTokens := 0 }
  · simpa using foldl_addUsage_outputTokens us { inputTokens := 0, outputTokens := 0 }
  · intro h
    rcases foldl_addUsage_cacheCreation_isSome us _ h with h' | h'
    · simp at h'
    · exact h'
  · intro h
    rcases foldl_addUsage_cacheRead_isSome us _ h with h' | h'
    · simp at h'
    · exact h'

/-- Witness for `token_aggregation_spec`: the cache-read implication
discharged at the spec's own example list. -/
theorem token_aggregation_spec_witness :
    ∃ u ∈ [({ inputTokens := 100, outputTokens := 50 } : TokenUsage),
           { inputTokens := 200, outputTokens := 100, cacheReadInputTokens := some 5 }],
      ∃ n, u.cacheReadInputTokens = some n ∧ n ≠ 0 :=
  (token_aggregation_spec.2.2.2 _).2 (by decide)

/-- C5: the interpolation contract — each placeholder is resolved by
splitting its trimmed path on `.` and walking the context; a missing
segment or a non-object intermediate leaves the whole placeholder
unchanged, a `null` final value keeps the placeholder, any other final
value substitutes its string form; including the three examples of the
spec. -/
theorem interpolation_spec :
    (interpolate "Hello \x7b\x7bname\x7d\x7d!" [("name", .str "World")] = "Hello World!") ∧
    (interpolate "\x7b\x7buser.name\x7d\x7d" [("user", .obj [("name", .str "Alice")])] =
      "Alice") ∧
    (interpolate "\x7b\x7bmissing\x7d\x7d" [] = "\x7b\x7bmissing\x7d\x7d") ∧
    (interpolate "\x7b\x7buser.name\x7d\x7d" [("user", .str "Bob")] =
      "\x7b\x7buser.name\x7d\x7d") ∧
    (interpolate "\x7b\x7bx\x7d\x7d" [("x", .null)] = "\x7b\x7bx\x7d\x7d") ∧
    (∀ v : JVal, v ≠ .null →
      interpolate "\x7b\x7bx\x7d\x7d" [("x", v)] = v.toDisplayString) ∧
    (∀ ctx : List (String × JVal), ctx.any (fun p => p.1 == "x") = false →
      interpolate "\x7b\x7bx\x7d\x7d" ctx = "\x7b\x7bx\x7d\x7d") := by
  refine ⟨by decide, by decide, by decide, by decide, by decide, ?_, ?_⟩
  · intro v h
    cases v with
    | null => exact absurd rfl h
    | bool b => cases b <;> rfl
    | num n =>
        show String.mk ((toString n).data ++ []) = toString n
        rw [List.append_nil]
    | str s =>
        show String.mk (s.data ++ []) = s
        rw [List.append_nil]
    | obj fields => rfl
  · intro ctx h
    show String.mk ((walkPath _ _ (JVal.obj ctx)).data ++ []) = _
    simp only [walkPath, JVal.truthy, JVal.isObject, JVal.hasKey, h]
    rfl

/-- Witness for `interpolation_spec`: the non-null substitution conjunct
discharged at the spec's own example value. -/
theorem interpolation_spec_witness :
    interpolate "\x7b\x7bx\x7d\x7d" [("x", .str "World")] =
      (JVal.str "World").toDisplayString :=
  interpolation_spec.2.2.2.2.2.1 (.str "World") (by intro h; cases h)

/-- Helper: appending the empty string is the identity. -/
theorem string_append_empty (s : String) : s ++ "" = s := by
  cases s with
  | mk data => show String.mk (data ++ []) = String.mk data; rw [List.append_nil]

/-- Helper: string concatenation is associative. -/
theorem string_append_assoc (a b c : String) : a ++ b ++ c = a ++ (b ++ c) := by
  cases a; cases b; cases c
  show String.mk _ = String.mk _
  rw [List.append_assoc]

/-- Helper: `String.join` unfolds on cons. -/
theorem string_join_cons (t : String) (ts : List String) :
    String.join (t :: ts) = t ++ String.join ts := by
  show List.foldl (· ++ ·) ("" ++ t) ts = t ++ String.join ts
  have key : ∀ (l : List String) (a : String), l.foldl (· ++ ·) a = a ++ String.join l := by
    intro l
    induction l with
    | nil => intro a; exact (string_append_empty a).symm
    | cons x xs ih =>
        intro a
        show List.foldl (· ++ ·) (a ++ x) xs = _
        rw [ih (a ++ x), string_append_assoc]
        congr 1
        rw [show String.join (x :: xs) = List.foldl (· ++ ·) ("" ++ x) xs from rfl]
        rw [ih ("" ++ x)]
        congr 1
  rw [key ts ("" ++ t)]
  congr 1

/-- Helper: the stream iteration's grown buffer is the initial buffer
followed by the concatenation of the tokens it yielded. -/
theorem streamLoop_content (promptId : String) :
    ∀ (events : List (Except Err StreamEvent)) (st : EvSt) (buf : String),
      (streamLoop promptId st buf events).2.1
        = buf ++ String.join (streamLoop promptId st buf events).2.2.1 := by
  intro events
  induction events with
  | nil =>
      intro st buf
      exact (string_append_empty buf).symm
  | cons entry rest ih =>
      intro st buf
      cases entry with
      | error e => exact (string_append_empty buf).symm
      | ok ev =>
          cases ev with
          | contentBlockDelta o =>
              cases o with
              | none => exact ih st buf
              | some t =>
                  simp only [streamLoop]
                  rw [ih _ (buf ++ t), string_join_cons, string_append_assoc]
          | otherKind => exact ih st buf

/-- Helper: with no `beforeCall`/`afterCall` hooks, a streaming run
yields its tokens in order followed by exactly one final result whose
content is the concatenation of those tokens — in the failing cases as
well as the successful one. -/
theorem runStreaming_shape (cfg : PromptConfig) (model : String) (input : JVal)
    (st : EvSt) (stream : StreamScript)
    (hbc : cfg.hooks.beforeCall = none) (hac : cfg.hooks.afterCall = none) :
    ∃ tokens result,
      (PromptInstance.runStreaming cfg model input st stream).2
        = .ok (tokens.map .token ++ [.result result]) ∧
      result.content = String.join tokens := by
  cases hcid : cfg.id <;>
  · simp only [PromptInstance.runStreaming, hcid, hbc, hac]
    split
    · refine ⟨_, _, rfl, ?_⟩
      exact streamLoop_content _ _ _ _
    · split
      · refine ⟨_, _, rfl, ?_⟩
        exact streamLoop_content _ _ _ _
      · refine ⟨_, _, rfl, ?_⟩
        exact streamLoop_content _ _ _ _

/-- Helper: a non-streaming prompt run without an `afterCall` hook that
returns an error-carrying result always has empty content (the catch
block builds it so). -/
theorem promptRun_failure_empty_content (cfg : PromptConfig) (model : String)
    (input : JVal) (handlers : ToolHandlers) (st : EvSt) (script : ClientScript)
    (res : PromptResult) (hac : cfg.hooks.afterCall = none)
    (hok : (PromptInstance.run cfg model input handlers st script).2.2 = .ok res)
    (herr : res.error.isSome) : res.content = "" := by
  cases hcid : cfg.id <;>
  · simp only [PromptInstance.run, hcid] at hok
    rcases hbc : (match cfg.hooks.beforeCall with
                  | some f => f input
                  | none => .ok input) with e | pi <;>
      rw [hbc] at hok <;> dsimp only at hok
    · exact absurd hok (by simp)
    · cases script with
      | nil =>
          simp [promptCatch] at hok
          rw [← hok]
      | cons entry rest =>
          cases entry with
          | error e =>
              simp [promptCatch] at hok
              rw [← hok]
          | ok resp =>
              dsimp only at hok
              split at hok
              · simp [promptCatch] at hok
                rw [← hok]
              · rw [hac] at hok
                dsimp only at hok
                simp at hok
                rw [← hok] at herr
                simp at herr

/-- C10: in a streamed execution without result-rewriting hooks the
final result's content is exactly the in-order concatenation of the
yielded tokens; a mid-stream failure yields an error-carrying result
preserving the partial content streamed so far; a failing non-streaming
run, by contrast, always returns empty content. -/
theorem streaming_content_spec :
    (∀ (cfg : PromptConfig) (model : String) (input : JVal) (st : EvSt)
        (stream : StreamScript),
      cfg.hooks.beforeCall = none → cfg.hooks.afterCall = none →
      ∃ tokens result,
        (PromptInstance.runStreaming cfg model input st stream).2
          = .ok (tokens.map .token ++ [.result result]) ∧
        result.content = String.join tokens) ∧
    ((PromptInstance.runStreaming c2Prompt "m" .null EvSt.initial c10FailStream).2
      = .ok [.token "par",
             .result { content := "par", tokenUsage := { inputTokens := 0, outputTokens := 0 },
                       toolCalls := [], error := some "boom" }]) ∧
    (∀ (cfg : PromptConfig) (model : String) (input : JVal) (handlers : ToolHandlers)
        (st : EvSt) (script : ClientScript) (res : PromptResult),
      cfg.hooks.afterCall = none →
      (PromptInstance.run cfg model input handlers st script).2.2 = .ok res →
      res.error.isSome → res.content = "") := by
  exact ⟨runStreaming_shape, by rfl, promptRun_failure_empty_content⟩

/-- Witness for `streaming_content_spec`: the shape-and-content
conjunct discharged at a concrete two-token stream. -/
theorem streaming_content_spec_witness :
    ∃ tokens result,
      (PromptInstance.runStreaming c2Prompt "m" .null EvSt.initial c10OkStream).2
        = .ok (List.map StreamYield.token tokens ++ [.result result]) ∧
      result.content = String.join tokens :=
  streaming_content_spec.1 c2Prompt "m" .null EvSt.initial c10OkStream rfl rfl


/-- Helper: with a non-throwing (or absent) `beforeCall` hook, no
exception escapes `PromptInstance.run`: every failure ends in
`promptCatch` and an ordinary error-carrying result. -/
theorem promptRun_ok (cfg : PromptConfig) (model : String) (input : JVal)
    (handlers : ToolHandlers) (st : EvSt) (script : ClientScript)
    (hbc : ∀ f, cfg.hooks.beforeCall = some f → ∃ y, f input = .ok y) :
    ∃ res, (PromptInstance.run cfg model input handlers st script).2.2 = .ok res := by
  cases hcid : cfg.id <;>
  · simp only [PromptInstance.run, hcid]
    rcases hbcm : (match cfg.hooks.beforeCall with
                   | some f => f input
                   | none => .ok input) with e | pi
    · exfalso
      cases hf : cfg.hooks.beforeCall with
      | none => rw [hf] at hbcm; cases hbcm
      | some f =>
          obtain ⟨y, hy⟩ := hbc f hf
          rw [hf] at hbcm
          dsimp only at hbcm
          rw [hy] at hbcm
          cases hbcm
    · rw [hbcm]
      dsimp only
      cases script with
      | nil => exact ⟨_, rfl⟩
      | cons entry rest =>
          cases entry with
          | error e => exact ⟨_, rfl⟩
          | ok resp =>
              dsimp only
              split
              · exact ⟨_, rfl⟩
              · split
                · exact ⟨_, rfl⟩
                · exact ⟨_, rfl⟩

/-- Helper: the catch block of `Agent.run` returns normally whenever
the `onError` hook does not throw. -/
theorem agentCatch_ok (onError : Option (Err → Except Err Unit))
    (agentId agentName : String) (results : List PromptResult) (retryCount : Nat)
    (e : Err) (st : EvSt) (script : ClientScript)
    (hoe : ∀ f, onError = some f → ∀ x, f x = .ok ()) :
    ∃ res, (agentCatch onError agentId agentName results retryCount e st script).2.2
      = .ok res := by
  unfold agentCatch
  cases hf : onError with
  | none => exact ⟨_, rfl⟩
  | some f =>
      dsimp only
      rw [hoe f hf e]
      exact ⟨_, rfl⟩

/-- Helper: with non-throwing `beforeRun` and `onError` hooks, no
exception escapes `Agent.run`, whatever the prompts, their hooks, the
tool handlers or the client do. -/
theorem agentRun_ok (cfg : AgentConfig) (parentModel : Option String)
    (handlers : ToolHandlers) (input : JVal) (st : EvSt) (script : ClientScript)
    (hbr : ∀ f, cfg.hooks.beforeRun = some f → ∃ y, f input = .ok y)
    (hoe : ∀ f, cfg.hooks.onError = some f → ∀ x, f x = .ok ()) :
    ∃ res, (Agent.run cfg parentModel handlers input st script).2.2 = .ok res := by
  cases hcid : cfg.id <;>
  · simp only [Agent.run, hcid]
    rcases hbcm : (match cfg.hooks.beforeRun with
                   | some f => f input
                   | none => .ok input) with e | pi
    · exfalso
      cases hf : cfg.hooks.beforeRun with
      | none => rw [hf] at hbcm; cases hbcm
      | some f =>
          obtain ⟨y, hy⟩ := hbr f hf
          rw [hf] at hbcm
          dsimp only at hbcm
          rw [hy] at hbcm
          cases hbcm
    · rw [hbcm]
      dsimp only
      split
      · exact agentCatch_ok _ _ _ _ _ _ _ _ hoe
      · split
        · exact agentCatch_ok _ _ _ _ _ _ _ _ hoe
        · exact ⟨_, rfl⟩

/-- Helper: the workflow step loop always ends in status completed with
no error, or status failed with a populated error. -/
theorem workflow_status_dichotomy (wcfg : AgentWorkflowConfig) (handlers : ToolHandlers)
    (input : JVal) :
    ∀ (steps : List WorkflowStepConfig) (acc : List StepRunResult) (usage : TokenUsage)
      (st : EvSt) (script : ClientScript),
      (((workflowStepsLoop wcfg handlers input steps acc usage st script).2.2.1 = .completed ∧
        (workflowStepsLoop wcfg handlers input steps acc usage st script).2.2.2.error = none) ∨
       ((workflowStepsLoop wcfg handlers input steps acc usage st script).2.2.1 = .failed ∧
        ∃ e, (workflowStepsLoop wcfg handlers input steps acc usage st script).2.2.2.error
          = some e)) := by
  intro steps
  induction steps with
  | nil => intro acc usage st script; exact .inl ⟨rfl, rfl⟩
  | cons step rest ih =>
      intro acc usage st script
      rw [workflowStepsLoop]
      rcases hrun : (AgentWorkflow.executeStep wcfg handlers step input st script).2.2
        with e | stepResult
      · exact .inr ⟨rfl, e, rfl⟩
      · dsimp only
        rcases hfind : (stepResult.agentResults.find? (fun r => r.error.isSome)).bind
          (fun r => r.error) with _ | e2
        · rw [hfind]
          exact ih _ _ _ _
        · rw [hfind]
          exact .inr ⟨rfl, e2, rfl⟩

/-- C1 counterexample: the claim fails as stated.  The `beforeCall` and
`beforeRun` hooks run before the protective try blocks, so a throwing
hook escapes `PromptInstance.run` and `Agent.run` (here `Except.error`
is an exception reaching the caller, not an error field on a result). -/
theorem no_escape_counterexample :
    (PromptInstance.run c1Prompt "m" .null [] EvSt.initial []).2.2
      = .error "boom" ∧
    (Agent.run c1Agent none [] .null EvSt.initial []).2.2 = .error "boom" :=
  ⟨rfl, rfl⟩

/-- C1 amended: provided the hooks that run outside the protective try
blocks do not throw — `beforeCall` for `PromptInstance.run`, `beforeRun`
and (in the catch block) `onError` for `Agent.run` — no exception
escapes those functions and every failure is surfaced on the result;
`AgentWorkflow.run` never throws regardless, ending either completed
with no error or failed with a populated error the caller must
inspect. -/
theorem no_escape_amended :
    (∀ (cfg : PromptConfig) (model : String) (input : JVal) (handlers : ToolHandlers)
        (st : EvSt) (script : ClientScript),
      (∀ f, cfg.hooks.beforeCall = some f → ∃ y, f input = .ok y) →
      ∃ res, (PromptInstance.run cfg model input handlers st script).2.2 = .ok res) ∧
    (∀ (cfg : AgentConfig) (parentModel : Option String) (handlers : ToolHandlers)
        (input : JVal) (st : EvSt) (script : ClientScript),
      (∀ f, cfg.hooks.beforeRun = some f → ∃ y, f input = .ok y) →
      (∀ f, cfg.hooks.onError = some f → ∀ x, f x = .ok ()) →
      ∃ res, (Agent.run cfg parentModel handlers input st script).2.2 = .ok res) ∧
    (∀ (wcfg : AgentWorkflowConfig) (handlers : ToolHandlers) (input : JVal)
        (st : EvSt) (script : ClientScript),
      ((AgentWorkflow.run wcfg handlers input st script).2.2.1 = .completed ∧
        (AgentWorkflow.run wcfg handlers input st script).2.2.2.error = none) ∨
      ((AgentWorkflow.run wcfg handlers input st script).2.2.1 = .failed ∧
        ∃ e, (AgentWorkflow.run wcfg handlers input st script).2.2.2.error = some e)) :=
  ⟨promptRun_ok, agentRun_ok,
   fun wcfg handlers input st script =>
     workflow_status_dichotomy wcfg handlers input wcfg.steps [] emptyTokenUsage st script⟩

/-- Witness for `no_escape_amended`: the prompt-level conjunct
discharged at a hook-free prompt against a rejecting client. -/
theorem no_escape_amended_witness :
    ∃ res, (PromptInstance.run c2Prompt "m" .null [] EvSt.initial
      [.error "transport failure"]).2.2 = .ok res :=
  no_escape_amended.1 c2Prompt "m" .null [] EvSt.initial [.error "transport failure"]
    (fun f hf => by cases hf)


/-- C3: model resolution follows the priority order
prompt > agent > workflow-default, failing only when all three are
absent; and an `Agent.run` with no resolvable model anywhere and at
least one prompt returns (rather than throws) a result whose error is
the missing-configuration message and whose `promptResults` is empty. -/
theorem model_resolution_spec :
    (∀ (a w : Option String) (m : String), Agent.resolveModel (some m) a w = .ok m) ∧
    (∀ (w : Option String) (m : String), Agent.resolveModel none (some m) w = .ok m) ∧
    (∀ m : String, Agent.resolveModel none none (some m) = .ok m) ∧
    (Agent.resolveModel none none none =
      .error "No model configured. Specify model on prompt, agent, or workflow.") ∧
    (∀ (cfg : AgentConfig) (handlers : ToolHandlers) (input : JVal) (st : EvSt)
        (script : ClientScript) (p : PromptConfig) (rest : List PromptConfig),
      cfg.prompts = p :: rest → p.model = none → cfg.model = none → cfg.hooks = {} →
      (Agent.run cfg none handlers input st script).2.2 = .ok
        { promptResults := []
          tokenUsage := { inputTokens := 0, outputTokens := 0 }
          retryCount := 0
          error := some "No model configured. Specify model on prompt, agent, or workflow." }) := by
  refine ⟨fun a w m => rfl, fun w m => rfl, fun m => rfl, rfl, ?_⟩
  intro cfg handlers input st script p rest hprompts hp hm hhooks
  simp [Agent.run, hhooks, hprompts, promptsLoop, retryLoop, hp, hm,
    Agent.resolveModel, agentCatch, Option.orElse, aggregateTokenUsage]

/-- Witness for `model_resolution_spec`: the missing-configuration
conjunct discharged at a concrete one-prompt agent. -/
theorem model_resolution_spec_witness :
    (Agent.run { name := "a", prompts := [{ name := "p", user := "u" }] }
        none [] .null EvSt.initial []).2.2 = .ok
      { promptResults := []
        tokenUsage := { inputTokens := 0, outputTokens := 0 }
        retryCount := 0
        error := some "No model configured. Specify model on prompt, agent, or workflow." } :=
  model_resolution_spec.2.2.2.2 _ [] .null EvSt.initial [] _ [] rfl rfl rfl rfl

/-- Helper: an unchanged trace is an (empty) delta. -/
theorem EventsDelta.same {P : WorkflowEvent → Bool} {a b : EvSt}
    (h : b.events = a.events) : EventsDelta P a b :=
  ⟨[], by rw [h, List.append_nil], by intro e he; cases he⟩

/-- Helper: reflexivity of `EventsDelta`. -/
theorem EventsDelta.of_rfl {P : WorkflowEvent → Bool} (a : EvSt) : EventsDelta P a a :=
  EventsDelta.same rfl

/-- Helper: deltas compose. -/
theorem EventsDelta.trans {P : WorkflowEvent → Bool} {a b c : EvSt}
    (h1 : EventsDelta P a b) (h2 : EventsDelta P b c) : EventsDelta P a c := by
  obtain ⟨d1, he1, hp1⟩ := h1
  obtain ⟨d2, he2, hp2⟩ := h2
  refine ⟨d1 ++ d2, ?_, ?_⟩
  · rw [he2, he1, List.append_assoc]
  · intro e he
    rcases List.mem_append.mp he with h | h
    · exact hp1 e h
    · exact hp2 e h

/-- Helper: emitting one `P` event is a delta. -/
theorem EventsDelta.emit {P : WorkflowEvent → Bool} {a : EvSt} {e : WorkflowEvent}
    (h : P e) : EventsDelta P a (a.emit e) :=
  ⟨[e], rfl, by intro x hx; rcases List.mem_singleton.mp hx with rfl; exact h⟩

/-- Helper: a delta followed by one emitted `P` event. -/
theorem EventsDelta.emit_trans {P : WorkflowEvent → Bool} {a b : EvSt}
    {e : WorkflowEvent} (h1 : EventsDelta P a b) (h : P e) :
    EventsDelta P a (b.emit e) :=
  h1.trans (EventsDelta.emit h)

/-- Helper: deltas are monotone in the event predicate. -/
theorem EventsDelta.mono {P Q : WorkflowEvent → Bool} {a b : EvSt}
    (h : ∀ e, P e = true → Q e = true) (hd : EventsDelta P a b) : EventsDelta Q a b := by
  obtain ⟨d, he, hp⟩ := hd
  exact ⟨d, he, fun e hm => h e (hp e hm)⟩

/-- Helper: one tool call publishes only prompt-level events. -/
theorem runToolCall_delta (handlers : ToolHandlers) (hooks : PromptHooks)
    (promptId : String) (st : EvSt) (blockId name input : String) :
    EventsDelta promptLevelEvent st
      (runToolCall handlers hooks promptId st blockId name input).1 := by
  refine EventsDelta.trans (b := { st with nextId := st.nextId + 1 })
    (EventsDelta.same rfl) ?_
  exact (EventsDelta.emit rfl).emit_trans rfl

/-- Helper: processing a response publishes only prompt-level events. -/
theorem processBlocks_delta (handlers : ToolHandlers) (hooks : PromptHooks)
    (promptId : String) :
    ∀ (blocks : List ContentBlock) (st : EvSt),
      EventsDelta promptLevelEvent st
        (processBlocks handlers hooks promptId st blocks).1 := by
  intro blocks
  induction blocks with
  | nil => intro st; exact EventsDelta.of_rfl st
  | cons b rest ih =>
      intro st
      cases b with
      | text t => exact ih st
      | toolUse blockId name input =>
          exact (runToolCall_delta handlers hooks promptId st blockId name input).trans
            (ih _)

/-- Helper: one loop iteration publishes only prompt-level events. -/
theorem toolLoopStep_delta (handlers : ToolHandlers) (hooks : PromptHooks)
    (promptId model : String) (system : Option String) (tools : Option (List Tool))
    (messages : List MessageParam) (response : Response)
    (toolCalls : List ToolCallEvent) (st : EvSt) :
    EventsDelta promptLevelEvent st
      (toolLoopStep handlers hooks promptId model system tools messages response
        toolCalls st).2.2 := by
  refine (processBlocks_delta handlers hooks promptId response.content st).trans ?_
  exact EventsDelta.same rfl

/-- Helper: the tool loop publishes only prompt-level events. -/
theorem toolLoop_delta (handlers : ToolHandlers) (hooks : PromptHooks)
    (promptId model : String) (system : Option String) (tools : Option (List Tool)) :
    ∀ (script : ClientScript) (messages : List MessageParam) (resp : Response)
      (usage : TokenUsage) (toolCalls : List ToolCallEvent) (st : EvSt),
      EventsDelta promptLevelEvent st
        (toolLoop handlers hooks promptId model system tools script messages resp usage
          toolCalls st).1 := by
  intro script
  induction script with
  | nil =>
      intro messages resp usage toolCalls st
      rw [toolLoop]
      by_cases h : resp.stopReason = some "tool_use"
      · simp only [h, reduceIte]
        exact toolLoopStep_delta _ _ _ _ _ _ _ _ _ _
      · simp only [h, reduceIte]
        exact EventsDelta.of_rfl st
  | cons entry rest ih =>
      intro messages resp usage toolCalls st
      rw [toolLoop]
      by_cases h : resp.stopReason = some "tool_use"
      · simp only [h, reduceIte]
        cases entry with
        | error e =>
            try dsimp only
            exact toolLoopStep_delta _ _ _ _ _ _ _ _ _ _
        | ok r2 =>
            try dsimp only
            exact (toolLoopStep_delta _ _ _ _ _ _ _ _ _ _).trans (ih _ _ _ _ _)
      · simp only [h, reduceIte]
        exact EventsDelta.of_rfl st



/-- Helper: a prompt run publishes only prompt-level events. -/
theorem promptRun_delta (cfg : PromptConfig) (model : String) (input : JVal)
    (handlers : ToolHandlers) (st : EvSt) (script : ClientScript) :
    EventsDelta promptLevelEvent st
      (PromptInstance.run cfg model input handlers st script).1 := by
  cases hcid : cfg.id <;>
  · simp only [PromptInstance.run, hcid]
    rcases hbcm : (match cfg.hooks.beforeCall with
                   | some f => f input
                   | none => .ok input) with e | pi
    · rw [hbcm]
      exact EventsDelta.same rfl
    · rw [hbcm]
      dsimp only
      cases script with
      | nil =>
          simp only [promptCatch]
          exact ((EventsDelta.same rfl).emit_trans rfl).emit_trans rfl
      | cons entry rest =>
          cases entry with
          | error e =>
              simp only [promptCatch]
              exact ((EventsDelta.same rfl).emit_trans rfl).emit_trans rfl
          | ok resp =>
              dsimp only
              split
              · simp only [promptCatch]
                refine EventsDelta.emit_trans (EventsDelta.trans
                  (EventsDelta.emit_trans (EventsDelta.same rfl) ?_)
                  (toolLoop_delta _ _ _ _ _ _ _ _ _ _ _ _)) ?_ <;> rfl
              · split
                · simp only [promptCatch]
                  refine EventsDelta.emit_trans (EventsDelta.trans
                    (EventsDelta.emit_trans (EventsDelta.same rfl) ?_)
                    (toolLoop_delta _ _ _ _ _ _ _ _ _ _ _ _)) ?_ <;> rfl
                · refine EventsDelta.emit_trans (EventsDelta.trans
                    (EventsDelta.emit_trans (EventsDelta.same rfl) ?_)
                    (toolLoop_delta _ _ _ _ _ _ _ _ _ _ _ _)) ?_ <;> rfl



/-- Helper: a delta of only `P` events leaves counts of `P`-disjoint events unchanged. -/
theorem countP_preserved {p P : WorkflowEvent → Bool} {a b : EvSt}
    (h : EventsDelta P a b) (hdisj : ∀ e, P e = true → p e = false) :
    b.events.countP p = a.events.countP p := by
  obtain ⟨d, he, hp⟩ := h
  rw [he, List.countP_append]
  have hz : d.countP p = 0 :=
    List.countP_eq_zero.mpr (fun e hm => by simp [hdisj e (hp e hm)])
  omega

/-- Helper: prompt-level events are never `reflectionStart`. -/
theorem promptLevel_not_reflStart :
    ∀ e, promptLevelEvent e = true → isReflectionStart e = false := by
  intro e h
  cases e <;> first | rfl | simp [promptLevelEvent] at h

/-- Helper: a prompt run never emits `reflectionStart` — the reflection sub-protocol cannot recurse through the nested `PromptInstance.run` it performs. -/
theorem promptRun_reflCount (cfg : PromptConfig) (model : String) (input : JVal)
    (handlers : ToolHandlers) (st : EvSt) (script : ClientScript) :
    countReflectionStarts
        (PromptInstance.run cfg model input handlers st script).1.events
      = countReflectionStarts st.events :=
  countP_preserved (promptRun_delta cfg model input handlers st script)
    promptLevel_not_reflStart

/-- Helper: emitting one event changes the reflection count by its own tag. -/
theorem emit_reflCount (st : EvSt) (e : WorkflowEvent) :
    countReflectionStarts (st.emit e).events
      = countReflectionStarts st.events + (if isReflectionStart e then 1 else 0) := by
  by_cases h : isReflectionStart e <;>
    simp [countReflectionStarts, EvSt.emit, List.countP_append, List.countP_cons, h]

/-- Helper: one `Agent.reflect` emits exactly one `reflectionStart`, on every path. -/
theorem reflect_reflCount (agentModel parentModel : Option String)
    (onReflection : Option (PromptResult → PromptResult → Except Err Unit))
    (agentId originalUser : String) (failedResult : PromptResult)
    (st : EvSt) (script : ClientScript) :
    countReflectionStarts
        (Agent.reflect agentModel parentModel onReflection agentId originalUser
          failedResult st script).1.events
      = countReflectionStarts st.events + 1 := by
  unfold Agent.reflect
  have hstart : countReflectionStarts (st.emit (.reflectionStart agentId)).events
      = countReflectionStarts st.events + 1 := by
    rw [emit_reflCount]; rfl
  split
  · exact hstart
  · dsimp only
    split
    · rw [promptRun_reflCount, hstart]
    · split
      · rw [emit_reflCount, promptRun_reflCount, hstart]; rfl
      · rw [emit_reflCount, promptRun_reflCount, hstart]; rfl



/-- Helper: over the whole retry loop the source's failed-attempt counter grows to at most `attempts + budget + 1` and never shrinks, and the number of `reflectionStart` events grows by at most the number of failed attempts. -/
theorem retryLoop_bounds (agentModel : Option String) (enableReflection : Option Bool)
    (hooks : AgentHooks) (parentModel : Option String) (agentId : String)
    (promptCfg : PromptConfig) (promptInput : JVal) (handlers : ToolHandlers) :
    ∀ (budget attempts : Nat) (st : EvSt) (script : ClientScript),
      ((retryLoop agentModel enableReflection hooks parentModel agentId promptCfg
          promptInput handlers budget attempts st script).2.2.1 ≤ attempts + budget + 1) ∧
      (attempts ≤ (retryLoop agentModel enableReflection hooks parentModel agentId
          promptCfg promptInput handlers budget attempts st script).2.2.1) ∧
      (countReflectionStarts (retryLoop agentModel enableReflection hooks parentModel
            agentId promptCfg promptInput handlers budget attempts st script).1.events
          + attempts
        ≤ countReflectionStarts st.events
          + (retryLoop agentModel enableReflection hooks parentModel agentId promptCfg
              promptInput handlers budget attempts st script).2.2.1) := by
  intro budget
  induction budget with
  | zero =>
      intro attempts st script
      rw [retryLoop]
      split
      · dsimp only
        exact ⟨by omega, le_refl _, by omega⟩
      · dsimp only
        split
        · dsimp only
          exact ⟨by omega, le_refl _, by rw [promptRun_reflCount]⟩
        · split
          · dsimp only
            exact ⟨by omega, le_refl _, by rw [promptRun_reflCount]⟩
          · split
            · dsimp only
              exact ⟨by omega, by omega, by rw [promptRun_reflCount]; omega⟩
            · dsimp only
              exact ⟨by omega, by omega, by rw [promptRun_reflCount]; omega⟩
  | succ b ih =>
      intro attempts st script
      rw [retryLoop]
      split
      · dsimp only
        exact ⟨by omega, le_refl _, by omega⟩
      · rename_i model hmodel
        dsimp only
        split
        · dsimp only
          exact ⟨by omega, le_refl _, by rw [promptRun_reflCount]⟩
        · rename_i result hresult
          split
          · dsimp only
            exact ⟨by omega, le_refl _, by rw [promptRun_reflCount]⟩
          · rename_i resultErr herr2
            split
            · dsimp only
              exact ⟨by omega, by omega, by rw [promptRun_reflCount]; omega⟩
            · split
              · split
                · dsimp only
                  exact ⟨by omega, by omega,
                    by rw [reflect_reflCount, promptRun_reflCount]; omega⟩
                · rename_i reflectionResult hreflres
                  split
                  · dsimp only
                    exact ⟨by omega, by omega,
                      by rw [reflect_reflCount, promptRun_reflCount]; omega⟩
                  · have hS : countReflectionStarts
                        (Agent.reflect agentModel parentModel hooks.onReflection agentId
                          promptCfg.user result
                          (PromptInstance.run promptCfg model promptInput handlers st
                            script).1
                          (PromptInstance.run promptCfg model promptInput handlers st
                            script).2.1).1.events
                        = countReflectionStarts st.events + 1 := by
                      rw [reflect_reflCount, promptRun_reflCount]
                    obtain ⟨ih1, ih2, ih3⟩ := ih (attempts + 1)
                      (Agent.reflect agentModel parentModel hooks.onReflection agentId
                        promptCfg.user result
                        (PromptInstance.run promptCfg model promptInput handlers st
                          script).1
                        (PromptInstance.run promptCfg model promptInput handlers st
                          script).2.1).1
                      (Agent.reflect agentModel parentModel hooks.onReflection agentId
                        promptCfg.user result
                        (PromptInstance.run promptCfg model promptInput handlers st
                          script).1
                        (PromptInstance.run promptCfg model promptInput handlers st
                          script).2.1).2.1
                    exact ⟨by omega, by omega, by omega⟩
              · have hS : countReflectionStarts
                    (PromptInstance.run promptCfg model promptInput handlers st
                      script).1.events
                    = countReflectionStarts st.events := promptRun_reflCount _ _ _ _ _ _
                obtain ⟨ih1, ih2, ih3⟩ := ih (attempts + 1)
                  (PromptInstance.run promptCfg model promptInput handlers st script).1
                  (PromptInstance.run promptCfg model promptInput handlers st script).2.1
                exact ⟨by omega, by omega, by omega⟩

/-- C4: the per-prompt retry loop is bounded — the failed-attempt
counter (incremented in lockstep with the agent-wide `retryCount`,
exactly once per failed attempt) ends at most `maxRetries + 1`, the
number of reflection attempts never exceeds the number of failed
attempts, a reflection execution (a plain nested prompt run) can never
emit another `reflectionStart` (no recursion); and in the concrete
always-failing scenario with `maxRetries = 1` and reflection enabled
the run terminates with an error-carrying result, `retryCount = 2`,
exactly one reflection attempt and exactly two prompt attempts. -/
theorem reflection_bound_spec :
    (∀ (agentModel : Option String) (enableReflection : Option Bool)
        (hooks : AgentHooks) (parentModel : Option String) (agentId : String)
        (promptCfg : PromptConfig) (promptInput : JVal) (handlers : ToolHandlers)
        (budget attempts : Nat) (st : EvSt) (script : ClientScript),
      ((retryLoop agentModel enableReflection hooks parentModel agentId promptCfg
          promptInput handlers budget attempts st script).2.2.1
        ≤ attempts + budget + 1) ∧
      (countReflectionStarts (retryLoop agentModel enableReflection hooks parentModel
            agentId promptCfg promptInput handlers budget attempts st script).1.events
          + attempts
        ≤ countReflectionStarts st.events
          + (retryLoop agentModel enableReflection hooks parentModel agentId promptCfg
              promptInput handlers budget attempts st script).2.2.1)) ∧
    (∀ (cfg : PromptConfig) (model : String) (input : JVal) (handlers : ToolHandlers)
        (st : EvSt) (script : ClientScript),
      countReflectionStarts
          (PromptInstance.run cfg model input handlers st script).1.events
        = countReflectionStarts st.events) ∧
    ((Agent.run c4Agent none [] .null EvSt.initial []).2.2 = .ok
      { promptResults := [{ content := ""
                            tokenUsage := { inputTokens := 0, outputTokens := 0 }
                            toolCalls := []
                            error := some "client: no scripted response" }]
        tokenUsage := { inputTokens := 0, outputTokens := 0 }
        retryCount := 2
        error := some "client: no scripted response" }) ∧
    (countReflectionStarts (Agent.run c4Agent none [] .null EvSt.initial []).1.events
      = 1) ∧
    (countPromptStarts "p" (Agent.run c4Agent none [] .null EvSt.initial []).1.events
      = 2) := by
  refine ⟨?_, promptRun_reflCount, by rfl, by decide, by decide⟩
  intro agentModel enableReflection hooks parentModel agentId promptCfg promptInput
    handlers budget attempts st script
  obtain ⟨h1, _, h3⟩ := retryLoop_bounds agentModel enableReflection hooks parentModel
    agentId promptCfg promptInput handlers budget attempts st script
  exact ⟨h1, h3⟩

/-- Witness for `reflection_bound_spec`: the retry-loop bound conjunct
evaluated at the concrete always-failing scenario. -/
theorem reflection_bound_spec_witness :
    ((retryLoop (some "m") (some true) {} none "a"
        { name := "p", user := "hi" } .null [] 1 0 EvSt.initial []).2.2.1 ≤ 0 + 1 + 1) ∧
    (countReflectionStarts (retryLoop (some "m") (some true) {} none "a"
          { name := "p", user := "hi" } .null [] 1 0 EvSt.initial []).1.events + 0
      ≤ countReflectionStarts EvSt.initial.events
        + (retryLoop (some "m") (some true) {} none "a"
            { name := "p", user := "hi" } .null [] 1 0 EvSt.initial []).2.2.1) :=
  reflection_bound_spec.1 (some "m") (some true) {} none "a"
    { name := "p", user := "hi" } .null [] 1 0 EvSt.initial []

/-- Helper: prompt-level events are agent-internal events. -/
theorem promptLevel_agentInternal :
    ∀ e, promptLevelEvent e = true → agentInternalEvent e = true := by
  intro e h
  simp [agentInternalEvent, h]

/-- Helper: one prompt run publishes only agent-internal events. -/
theorem promptRun_delta_internal (cfg : PromptConfig) (model : String) (input : JVal)
    (handlers : ToolHandlers) (st : EvSt) (script : ClientScript) :
    EventsDelta agentInternalEvent st
      (PromptInstance.run cfg model input handlers st script).1 :=
  (promptRun_delta cfg model input handlers st script).mono promptLevel_agentInternal

/-- Helper: `Agent.reflect` publishes the reflection bracket and the events of its nested prompt run, all agent-internal. -/
theorem reflect_delta (agentModel parentModel : Option String)
    (onReflection : Option (PromptResult → PromptResult → Except Err Unit))
    (agentId originalUser : String) (failedResult : PromptResult)
    (st : EvSt) (script : ClientScript) :
    EventsDelta agentInternalEvent st
      (Agent.reflect agentModel parentModel onReflection agentId originalUser
        failedResult st script).1 := by
  unfold Agent.reflect
  split
  · exact EventsDelta.emit rfl
  · dsimp only
    split
    · exact (EventsDelta.emit rfl).trans (promptRun_delta_internal _ _ _ _ _ _)
    · split
      · exact ((EventsDelta.emit rfl).trans
          (promptRun_delta_internal _ _ _ _ _ _)).emit_trans rfl
      · exact ((EventsDelta.emit rfl).trans
          (promptRun_delta_internal _ _ _ _ _ _)).emit_trans rfl

/-- Helper: the retry loop publishes only agent-internal events. -/
theorem retryLoop_delta (agentModel : Option String) (enableReflection : Option Bool)
    (hooks : AgentHooks) (parentModel : Option String) (agentId : String)
    (promptCfg : PromptConfig) (promptInput : JVal) (handlers : ToolHandlers) :
    ∀ (budget attempts : Nat) (st : EvSt) (script : ClientScript),
      EventsDelta agentInternalEvent st
        (retryLoop agentModel enableReflection hooks parentModel agentId promptCfg
          promptInput handlers budget attempts st script).1 := by
  intro budget
  induction budget with
  | zero =>
      intro attempts st script
      rw [retryLoop]
      split
      · exact EventsDelta.of_rfl st
      · dsimp only
        split
        · exact promptRun_delta_internal _ _ _ _ _ _
        · split
          · exact promptRun_delta_internal _ _ _ _ _ _
          · split
            · exact promptRun_delta_internal _ _ _ _ _ _
            · exact promptRun_delta_internal _ _ _ _ _ _
  | succ b ih =>
      intro attempts st script
      rw [retryLoop]
      split
      · exact EventsDelta.of_rfl st
      · rename_i model hmodel
        dsimp only
        split
        · exact promptRun_delta_internal _ _ _ _ _ _
        · rename_i result hresult
          split
          · exact promptRun_delta_internal _ _ _ _ _ _
          · rename_i resultErr herr2
            split
            · exact promptRun_delta_internal _ _ _ _ _ _
            · split
              · split
                · exact (promptRun_delta_internal _ _ _ _ _ _).trans
                    (reflect_delta _ _ _ _ _ _ _ _)
                · rename_i reflectionResult hreflres
                  split
                  · exact (promptRun_delta_internal _ _ _ _ _ _).trans
                      (reflect_delta _ _ _ _ _ _ _ _)
                  · exact ((promptRun_delta_internal _ _ _ _ _ _).trans
                      (reflect_delta _ _ _ _ _ _ _ _)).trans (ih _ _ _)
              · exact (promptRun_delta_internal _ _ _ _ _ _).trans (ih _ _ _)

/-- Helper: the prompt loop of `Agent.run` publishes only agent-internal events. -/
theorem promptsLoop_delta (agentModel : Option String) (enableReflection : Option Bool)
    (hooks : AgentHooks) (parentModel : Option String) (agentId : String)
    (handlers : ToolHandlers) (processedInput : JVal) (maxRetries : Nat) :
    ∀ (prompts : List PromptConfig) (acc : List PromptResult) (retryCount : Nat)
      (meta : Option ReflectionMetadata) (st : EvSt) (script : ClientScript),
      EventsDelta agentInternalEvent st
        (promptsLoop agentModel enableReflection hooks parentModel agentId handlers
          processedInput maxRetries prompts acc retryCount meta st script).1 := by
  intro prompts
  induction prompts with
  | nil => intro acc retryCount meta st script; exact EventsDelta.of_rfl st
  | cons promptCfg rest ih =>
      intro acc retryCount meta st script
      rw [promptsLoop]
      split
      · exact EventsDelta.of_rfl st
      · dsimp only
        split
        · exact retryLoop_delta _ _ _ _ _ _ _ _ _ _ _ _
        · split
          · exact retryLoop_delta _ _ _ _ _ _ _ _ _ _ _ _
          · split
            · exact retryLoop_delta _ _ _ _ _ _ _ _ _ _ _ _
            · exact (retryLoop_delta _ _ _ _ _ _ _ _ _ _ _ _).trans (ih _ _ _ _ _)

/-- Helper: `emit` appends one event to the log. -/
theorem EvSt.events_emit (st : EvSt) (e : WorkflowEvent) :
    (st.emit e).events = st.events ++ [e] := rfl

/-- Helper: the catch block of `Agent.run` closes the event log with the `agentRunEnd` bracket. -/
theorem agentCatch_events (onError : Option (Err → Except Err Unit))
    (agentId agentName : String) (results : List PromptResult) (retryCount : Nat)
    (e : Err) (st : EvSt) (script : ClientScript) (res : AgentRunResult)
    (h : (agentCatch onError agentId agentName results retryCount e st script).2.2
      = .ok res) :
    (agentCatch onError agentId agentName results retryCount e st script).1.events
      = st.events ++ [.agentRunEnd agentId agentName] := by
  unfold agentCatch at h ⊢
  split at h
  · cases h
  · rfl

/-- Helper: a normally returning agent run brackets its event log with `agentRunStart`/`agentRunEnd` around agent-internal events only. -/
theorem agentRun_ok_bracket (cfg : AgentConfig) (parentModel : Option String)
    (handlers : ToolHandlers) (input : JVal) (st : EvSt) (script : ClientScript)
    (res : AgentRunResult)
    (h : (Agent.run cfg parentModel handlers input st script).2.2 = .ok res) :
    ∃ aid mid,
      (Agent.run cfg parentModel handlers input st script).1.events
        = st.events ++ [.agentRunStart aid cfg.name] ++ mid
          ++ [.agentRunEnd aid cfg.name] ∧
      ∀ e ∈ mid, agentInternalEvent e := by
  cases hcid : cfg.id with
  | none =>
    simp only [Agent.run, hcid] at h ⊢
    rcases hbcm : (match cfg.hooks.beforeRun with
                   | some f => f input
                   | none => .ok input) with e | pi <;>
      rw [hbcm] at h ⊢ <;> dsimp only at h ⊢
    · cases h
    · obtain ⟨d, hd, hp⟩ := promptsLoop_delta cfg.model cfg.enableReflection cfg.hooks
        parentModel (genId st.nextId) handlers pi (cfg.maxRetries.getD 0) cfg.prompts [] 0
        none (EvSt.emit { st with nextId := st.nextId + 1 }
          (.agentRunStart (genId st.nextId) cfg.name)) script
      split at h <;> [skip; split at h]
      · refine ⟨(genId st.nextId), d, ?_, hp⟩
        rw [agentCatch_events _ _ _ _ _ _ _ _ _ h, hd]
        simp [EvSt.emit, List.append_assoc]
      · refine ⟨(genId st.nextId), d, ?_, hp⟩
        rw [agentCatch_events _ _ _ _ _ _ _ _ _ h, hd]
        simp [EvSt.emit, List.append_assoc]
      · refine ⟨(genId st.nextId), d, ?_, hp⟩
        rw [EvSt.events_emit, hd, EvSt.events_emit]
  | some i =>
    simp only [Agent.run, hcid] at h ⊢
    rcases hbcm : (match cfg.hooks.beforeRun with
                   | some f => f input
                   | none => .ok input) with e | pi <;>
      rw [hbcm] at h ⊢ <;> dsimp only at h ⊢
    · cases h
    · obtain ⟨d, hd, hp⟩ := promptsLoop_delta cfg.model cfg.enableReflection cfg.hooks
        parentModel i handlers pi (cfg.maxRetries.getD 0) cfg.prompts [] 0
        none (EvSt.emit st (.agentRunStart i cfg.name)) script
      split at h <;> [skip; split at h]
      · refine ⟨i, d, ?_, hp⟩
        rw [agentCatch_events _ _ _ _ _ _ _ _ _ h, hd]
        simp [EvSt.emit, List.append_assoc]
      · refine ⟨i, d, ?_, hp⟩
        rw [agentCatch_events _ _ _ _ _ _ _ _ _ h, hd]
        simp [EvSt.emit, List.append_assoc]
      · refine ⟨i, d, ?_, hp⟩
        rw [EvSt.events_emit, hd, EvSt.events_emit]

/-- Helper: the agent loop of a step appends results in order, every result before the last is error-free, at most one result per declared agent is produced, and the loop stops early exactly when the last collected result carries an error. -/
theorem stepAgentsLoop_ok (wcfg : AgentWorkflowConfig) (handlers : ToolHandlers)
    (input : JVal) :
    ∀ (agents : List AgentConfig) (acc : List AgentRunResult) (st : EvSt)
      (script : ClientScript) (results : List AgentRunResult),
      (stepAgentsLoop wcfg handlers input agents acc st script).2.2 = .ok results →
      ∃ delta, results = acc ++ delta ∧
        (∀ r ∈ delta.dropLast, r.error = none) ∧
        delta.length ≤ agents.length ∧
        (delta.length < agents.length →
          ∃ r, delta.getLast? = some r ∧ r.error.isSome) := by
  intro agents
  induction agents with
  | nil =>
      intro acc st script results h
      rw [stepAgentsLoop] at h
      cases h
      exact ⟨[], by simp, by simp, by simp, by simp⟩
  | cons a rest ih =>
      intro acc st script results h
      rw [stepAgentsLoop] at h
      split at h
      · cases h
      · rename_i result hres
        split at h
        · rename_i herr
          cases h
          refine ⟨[result], by simp, by simp, by simp, fun _ => ⟨result, rfl, herr⟩⟩
        · rename_i herr
          obtain ⟨delta, hdelta, hfree, hlen, hlast⟩ := ih _ _ _ _ h
          refine ⟨result :: delta, by simp [hdelta], ?_, by simp; omega, ?_⟩
          · intro r hr
            cases delta with
            | nil => simp at hr
            | cons x xs =>
                rw [List.dropLast_cons_of_ne_nil (by simp)] at hr
                rcases List.mem_cons.mp hr with rfl | hr
                · simp at herr
                  exact Option.not_isSome_iff_eq_none.mp (by simp [herr])
                · exact hfree r hr
          · intro hlt
            cases delta with
            | nil =>
                simp at hlen hlt ⊢
                have := hlast (by simpa using hlt)
                simp at this
            | cons x xs =>
                rw [List.getLast?_cons_cons]
                exact hlast (by simp at hlt ⊢; omega)

/-- Helper: the catch block only appends to the event log. -/
theorem agentCatch_delta_any (onError : Option (Err → Except Err Unit))
    (agentId agentName : String) (results : List PromptResult) (retryCount : Nat)
    (e : Err) (st : EvSt) (script : ClientScript) :
    EventsDelta (fun _ => true) st
      (agentCatch onError agentId agentName results retryCount e st script).1 := by
  unfold agentCatch
  split
  · exact EventsDelta.of_rfl st
  · exact EventsDelta.emit rfl

/-- Helper: an agent run only appends to the event log. -/
theorem agentRun_delta_any (cfg : AgentConfig) (parentModel : Option String)
    (handlers : ToolHandlers) (input : JVal) (st : EvSt) (script : ClientScript) :
    EventsDelta (fun _ => true) st
      (Agent.run cfg parentModel handlers input st script).1 := by
  cases hcid : cfg.id with
  | none =>
    simp only [Agent.run, hcid]
    rcases hbcm : (match cfg.hooks.beforeRun with
                   | some f => f input
                   | none => .ok input) with e | pi <;>
      rw [hbcm] <;> dsimp only
    · exact EventsDelta.same rfl
    · have hloop : EventsDelta (fun _ => true) st
          ((promptsLoop cfg.model cfg.enableReflection cfg.hooks parentModel
            (genId st.nextId) handlers pi (cfg.maxRetries.getD 0) cfg.prompts [] 0 none
            (EvSt.emit {st with nextId := st.nextId + 1}
              (.agentRunStart (genId st.nextId) cfg.name)) script).1) := by
        refine EventsDelta.trans ?_
          ((promptsLoop_delta _ _ _ _ _ _ _ _ _ _ _ _ _ _).mono (fun _ _ => rfl))
        exact EventsDelta.emit_trans
          (@EventsDelta.same (fun _ => true) st {st with nextId := st.nextId + 1} rfl) rfl
      split
      · exact hloop.trans (agentCatch_delta_any _ _ _ _ _ _ _ _)
      · split
        · exact hloop.trans (agentCatch_delta_any _ _ _ _ _ _ _ _)
        · exact hloop.emit_trans rfl
  | some i =>
    simp only [Agent.run, hcid]
    rcases hbcm : (match cfg.hooks.beforeRun with
                   | some f => f input
                   | none => .ok input) with e | pi <;>
      rw [hbcm] <;> dsimp only
    · exact EventsDelta.same rfl
    · have hloop : EventsDelta (fun _ => true) st
          ((promptsLoop cfg.model cfg.enableReflection cfg.hooks parentModel
            i handlers pi (cfg.maxRetries.getD 0) cfg.prompts [] 0 none
            (EvSt.emit st (.agentRunStart i cfg.name)) script).1) := by
        refine EventsDelta.trans ?_
          ((promptsLoop_delta _ _ _ _ _ _ _ _ _ _ _ _ _ _).mono (fun _ _ => rfl))
        exact EventsDelta.emit rfl
      split
      · exact hloop.trans (agentCatch_delta_any _ _ _ _ _ _ _ _)
      · split
        · exact hloop.trans (agentCatch_delta_any _ _ _ _ _ _ _ _)
        · exact hloop.emit_trans rfl

/-- Helper: the agent loop of a step only appends to the event log. -/
theorem stepAgentsLoop_delta_any (wcfg : AgentWorkflowConfig) (handlers : ToolHandlers)
    (input : JVal) :
    ∀ (agents : List AgentConfig) (acc : List AgentRunResult) (st : EvSt)
      (script : ClientScript),
      EventsDelta (fun _ => true) st
        (stepAgentsLoop wcfg handlers input agents acc st script).1 := by
  intro agents
  induction agents with
  | nil => intro acc st script; exact EventsDelta.of_rfl st
  | cons a rest ih =>
      intro acc st script
      rw [stepAgentsLoop]
      split
      · exact agentRun_delta_any _ _ _ _ _ _
      · split
        · exact agentRun_delta_any _ _ _ _ _ _
        · exact (agentRun_delta_any _ _ _ _ _ _).trans (ih _ _ _)

/-- Helper: a normally returning step execution brackets its events with `stepStart`/`stepEnd`, names the step after `name ?? step-{id ?? unknown}`, and its collected agent results are fail-fast: errors occur only in the last collected result, and a short list means the last result carried an error. -/
theorem executeStep_ok (wcfg : AgentWorkflowConfig) (handlers : ToolHandlers)
    (step : WorkflowStepConfig) (input : JVal) (st : EvSt) (script : ClientScript)
    (stepResult : StepRunResult)
    (h : (AgentWorkflow.executeStep wcfg handlers step input st script).2.2
          = .ok stepResult) :
    (∃ mid, (AgentWorkflow.executeStep wcfg handlers step input st script).1.events
        = st.events
          ++ [.stepStart (step.name.getD ("step-" ++ step.id.getD "unknown"))]
          ++ mid
          ++ [.stepEnd (step.name.getD ("step-" ++ step.id.getD "unknown"))])
    ∧ stepResult.stepName = step.name.getD ("step-" ++ step.id.getD "unknown")
    ∧ (∀ r ∈ stepResult.agentResults.dropLast, r.error = none)
    ∧ stepResult.agentResults.length ≤ step.agents.length
    ∧ (stepResult.agentResults.length < step.agents.length →
        ∃ r, stepResult.agentResults.getLast? = some r ∧ r.error.isSome) := by
  unfold AgentWorkflow.executeStep at h ⊢
  dsimp only at h ⊢
  split at h
  · cases h
  · rename_i agentResults hloop
    cases h
    obtain ⟨d, hd, hfree, hlen, hlast⟩ :=
      stepAgentsLoop_ok wcfg handlers input step.agents []
        (st.emit (.stepStart (step.name.getD ("step-" ++ step.id.getD "unknown"))))
        script agentResults hloop
    simp only [List.nil_append] at hd
    subst hd
    obtain ⟨d2, hd2, _⟩ :=
      stepAgentsLoop_delta_any wcfg handlers input step.agents []
        (st.emit (.stepStart (step.name.getD ("step-" ++ step.id.getD "unknown"))))
        script
    refine ⟨⟨d2, ?_⟩, rfl, hfree, hlen, hlast⟩
    rw [EvSt.events_emit, hd2, EvSt.events_emit]

/-- Helper: when the first errored result lookup yields no error, no result is errored. -/
theorem find_bind_none {l : List AgentRunResult}
    (h : ((l.find? (fun r => r.error.isSome)).bind (fun r => r.error)) = none) :
    l.find? (fun r => r.error.isSome) = none := by
  cases hf : l.find? (fun r => r.error.isSome) with
  | none => rfl
  | some r =>
      have hp := List.find?_some hf
      rw [hf] at h
      cases hre : r.error with
      | none => rw [hre] at hp; simp at hp
      | some e => simp [hre] at h

/-- Helper: the workflow step loop appends one result per executed step, runs at most the declared steps, every step before the last is error-free, and an error-free outcome means status completed with every declared step executed error-free. -/
theorem workflowStepsLoop_facts (wcfg : AgentWorkflowConfig) (handlers : ToolHandlers)
    (input : JVal) :
    ∀ (steps : List WorkflowStepConfig) (acc : List StepRunResult) (usage : TokenUsage)
      (st : EvSt) (script : ClientScript),
      ∃ delta,
        (workflowStepsLoop wcfg handlers input steps acc usage st script).2.2.2.stepResults
          = acc ++ delta ∧
        delta.length ≤ steps.length ∧
        (∀ sr ∈ delta.dropLast,
          sr.agentResults.find? (fun r => r.error.isSome) = none) ∧
        ((workflowStepsLoop wcfg handlers input steps acc usage st script).2.2.2.error = none →
          (workflowStepsLoop wcfg handlers input steps acc usage st script).2.2.1 = .completed ∧
          delta.length = steps.length ∧
          ∀ sr ∈ delta, sr.agentResults.find? (fun r => r.error.isSome) = none) := by
  intro steps
  induction steps with
  | nil =>
      intro acc usage st script
      refine ⟨[], ?_, ?_, ?_, fun _ => ⟨rfl, rfl, ?_⟩⟩
      · simp [workflowStepsLoop]
      · simp
      · intro sr hsr; simp at hsr
      · intro sr hsr; simp at hsr
  | cons step rest ih =>
      intro acc usage st script
      rw [workflowStepsLoop]
      split
      · exact ⟨[], by simp, by simp, by simp, by simp⟩
      · rename_i stepResult hstep
        split
        · rename_i stepError hfind
          refine ⟨[stepResult], by simp, by simp, by simp, ?_⟩
          intro habs
          simp at habs
        · rename_i hfind
          obtain ⟨d, hd, hlen, hfree, hcomp⟩ :=
            ih (acc ++ [stepResult]) (stepResult.agentResults.foldl
              (fun u r => aggregateTokenUsage [u, r.tokenUsage]) usage)
              (AgentWorkflow.executeStep wcfg handlers step input st script).1
              (AgentWorkflow.executeStep wcfg handlers step input st script).2.1
          refine ⟨stepResult :: d, ?_, ?_, ?_, ?_⟩
          · rw [hd]; simp
          · simp only [List.length_cons, List.length_cons]; omega
          · intro sr hsr
            cases d with
            | nil => simp at hsr
            | cons d0 drest =>
                rw [List.dropLast_cons_of_ne_nil (by simp)] at hsr
                rcases List.mem_cons.mp hsr with rfl | hmem
                · exact find_bind_none hfind
                · exact hfree sr hmem
          · intro herr
            obtain ⟨hc, hl, hall⟩ := hcomp herr
            refine ⟨hc, ?_, ?_⟩
            · simp only [List.length_cons]; omega
            · intro sr hsr
              rcases List.mem_cons.mp hsr with rfl | hmem
              · exact find_bind_none hfind
              · exact hall sr hmem

/-- C6 counterexample: in a run whose step holds two agents and whose first agent fails, the fail-fast behavior holds (one result collected, it carries the error, status failed) and the `stepEnd` event is still emitted - but the event does not carry the partial results: a second run differing only in the failure message produces the identical event list while the partial results of the two runs differ, so the partial results collected so far travel on the returned step result, not on the step-end event. -/
theorem fail_fast_counterexample :
    (∃ sr ∈ (AgentWorkflow.run c6Wcfg [] .null ⟨[], [], 0⟩ c6Script1).2.2.2.stepResults,
       sr.agentResults.length = 1 ∧ ∃ r ∈ sr.agentResults, r.error.isSome) ∧
    c6Step.agents.length = 2 ∧
    WorkflowEvent.stepEnd "s1" ∈ (AgentWorkflow.run c6Wcfg [] .null ⟨[], [], 0⟩ c6Script1).1.events ∧
    (AgentWorkflow.run c6Wcfg [] .null ⟨[], [], 0⟩ c6Script1).2.2.1 = .failed ∧
    (AgentWorkflow.run c6Wcfg [] .null ⟨[], [], 0⟩ c6Script1).1.events
      = (AgentWorkflow.run c6Wcfg [] .null ⟨[], [], 0⟩ c6Script2).1.events ∧
    (AgentWorkflow.run c6Wcfg [] .null ⟨[], [], 0⟩ c6Script1).2.2.2.stepResults
      ≠ (AgentWorkflow.run c6Wcfg [] .null ⟨[], [], 0⟩ c6Script2).2.2.2.stepResults := by
  decide

/-- C6 (amended): for every workflow run, a step's collected agent results are error-free except possibly the last, at most one result per declared agent of the step is collected and a short list means the last collected result carried an error (so no later agent of the step ran), the step still closes its `stepStart`/`stepEnd` event bracket while the partial results collected so far are carried on the returned step result (not on the step-end event); at the workflow level at most the declared steps run, every step result before the last is error-free (so no step runs after an errored one), the status is completed with no error or failed with a populated error, and an error-free run means status completed with every declared step executed and error-free. -/
theorem fail_fast_amended (wcfg : AgentWorkflowConfig) (handlers : ToolHandlers)
    (input : JVal) (st : EvSt) (script : ClientScript) :
    (∀ step stepResult,
      (AgentWorkflow.executeStep wcfg handlers step input st script).2.2 = .ok stepResult →
        (∀ r ∈ stepResult.agentResults.dropLast, r.error = none) ∧
        stepResult.agentResults.length ≤ step.agents.length ∧
        (stepResult.agentResults.length < step.agents.length →
          ∃ r, stepResult.agentResults.getLast? = some r ∧ r.error.isSome) ∧
        (∃ mid, (AgentWorkflow.executeStep wcfg handlers step input st script).1.events
          = st.events ++ [.stepStart (step.name.getD ("step-" ++ step.id.getD "unknown"))]
            ++ mid ++ [.stepEnd (step.name.getD ("step-" ++ step.id.getD "unknown"))]))
    ∧ ((AgentWorkflow.run wcfg handlers input st script).2.2.2.stepResults.length
        ≤ wcfg.steps.length)
    ∧ (∀ sr ∈ (AgentWorkflow.run wcfg handlers input st script).2.2.2.stepResults.dropLast,
        ∀ r ∈ sr.agentResults, r.error = none)
    ∧ (((AgentWorkflow.run wcfg handlers input st script).2.2.1 = .completed ∧
          (AgentWorkflow.run wcfg handlers input st script).2.2.2.error = none) ∨
       ((AgentWorkflow.run wcfg handlers input st script).2.2.1 = .failed ∧
          ∃ e, (AgentWorkflow.run wcfg handlers input st script).2.2.2.error = some e))
    ∧ ((AgentWorkflow.run wcfg handlers input st script).2.2.2.error = none →
        (AgentWorkflow.run wcfg handlers input st script).2.2.1 = .completed ∧
        (AgentWorkflow.run wcfg handlers input st script).2.2.2.stepResults.length
          = wcfg.steps.length ∧
        ∀ sr ∈ (AgentWorkflow.run wcfg handlers input st script).2.2.2.stepResults,
          ∀ r ∈ sr.agentResults, r.error = none) := by
  obtain ⟨delta, hd, hlen, hfree, hcomp⟩ :=
    workflowStepsLoop_facts wcfg handlers input wcfg.steps [] emptyTokenUsage st script
  simp only [List.nil_append] at hd
  have hall_of_find : ∀ (sr : StepRunResult),
      sr.agentResults.find? (fun r => r.error.isSome) = none →
      ∀ r ∈ sr.agentResults, r.error = none := by
    intro sr hf r hr
    have := List.find?_eq_none.mp hf r hr
    simpa using this
  refine ⟨?_, ?_, ?_, ?_, ?_⟩
  · intro step stepResult h
    obtain ⟨hbr, _, hfr, hln, hlast⟩ :=
      executeStep_ok wcfg handlers step input st script stepResult h
    exact ⟨hfr, hln, hlast, hbr⟩
  · show (workflowStepsLoop wcfg handlers input wcfg.steps [] emptyTokenUsage st
      script).2.2.2.stepResults.length ≤ wcfg.steps.length
    rw [hd]; exact hlen
  · show ∀ sr ∈ (workflowStepsLoop wcfg handlers input wcfg.steps [] emptyTokenUsage st
      script).2.2.2.stepResults.dropLast, ∀ r ∈ sr.agentResults, r.error = none
    rw [hd]
    intro sr hsr
    exact hall_of_find sr (hfree sr hsr)
  · exact workflow_status_dichotomy wcfg handlers input wcfg.steps [] emptyTokenUsage
      st script
  · intro herr
    obtain ⟨hc, hl, hall⟩ := hcomp herr
    refine ⟨hc, ?_, ?_⟩
    · show (workflowStepsLoop wcfg handlers input wcfg.steps [] emptyTokenUsage st
        script).2.2.2.stepResults.length = wcfg.steps.length
      rw [hd]; exact hl
    · show ∀ sr ∈ (workflowStepsLoop wcfg handlers input wcfg.steps [] emptyTokenUsage st
        script).2.2.2.stepResults, ∀ r ∈ sr.agentResults, r.error = none
      rw [hd]
      intro sr hsr
      exact hall_of_find sr (hall sr hsr)

/-- Witness for C6: on the concrete error-free script the workflow completes with one step result per declared step. -/
theorem fail_fast_amended_witness :
    (AgentWorkflow.run c6Wcfg [] .null ⟨[], [], 0⟩ c6OkScript).2.2.1 = .completed ∧
    (AgentWorkflow.run c6Wcfg [] .null ⟨[], [], 0⟩ c6OkScript).2.2.2.stepResults.length
      = c6Wcfg.steps.length :=
  ⟨((fail_fast_amended c6Wcfg [] .null ⟨[], [], 0⟩ c6OkScript).2.2.2.2 (by decide)).1,
   ((fail_fast_amended c6Wcfg [] .null ⟨[], [], 0⟩ c6OkScript).2.2.2.2 (by decide)).2.1⟩

/-- Helper: the agent loop of a single-agent step reduces to one agent run. -/
theorem stepAgentsLoop_single (wcfg : AgentWorkflowConfig) (handlers : ToolHandlers)
    (input : JVal) (a : AgentConfig) (st : EvSt) (script : ClientScript) :
    stepAgentsLoop wcfg handlers input [a] [] st script
      = (match (Agent.run a wcfg.defaultModel handlers input st script).2.2 with
         | .error e => ((Agent.run a wcfg.defaultModel handlers input st script).1,
                        (Agent.run a wcfg.defaultModel handlers input st script).2.1,
                        .error e)
         | .ok r => ((Agent.run a wcfg.defaultModel handlers input st script).1,
                     (Agent.run a wcfg.defaultModel handlers input st script).2.1,
                     .ok [r])) := by
  rw [stepAgentsLoop]
  dsimp only
  split
  · rfl
  · split
    · rfl
    · rw [stepAgentsLoop]; simp

/-- Helper: a normally returning single-agent step yields the exact event bracket stepStart, agentRunStart, agent-internal events, agentRunEnd, stepEnd. -/
theorem executeStep_single_events (wcfg : AgentWorkflowConfig) (handlers : ToolHandlers)
    (a : AgentConfig) (step : WorkflowStepConfig) (input : JVal) (st : EvSt)
    (script : ClientScript) (stepResult : StepRunResult)
    (ha : step.agents = [a])
    (h : (AgentWorkflow.executeStep wcfg handlers step input st script).2.2
          = .ok stepResult) :
    ∃ aid mid,
      (AgentWorkflow.executeStep wcfg handlers step input st script).1.events
        = st.events
          ++ [.stepStart (step.name.getD ("step-" ++ step.id.getD "unknown")),
              .agentRunStart aid a.name] ++ mid
          ++ [.agentRunEnd aid a.name,
              .stepEnd (step.name.getD ("step-" ++ step.id.getD "unknown"))] ∧
      ∀ e ∈ mid, agentInternalEvent e := by
  unfold AgentWorkflow.executeStep at h ⊢
  dsimp only at h ⊢
  rw [ha, stepAgentsLoop_single] at h ⊢
  rcases hrun : (Agent.run a wcfg.defaultModel handlers input
      (st.emit (.stepStart (step.name.getD ("step-" ++ step.id.getD "unknown"))))
      script).2.2 with e | r
  · rw [hrun] at h
    dsimp only at h
    cases h
  · rw [hrun] at h
    dsimp only at h ⊢
    obtain ⟨aid, mid, hev, hint⟩ := agentRun_ok_bracket a wcfg.defaultModel handlers input
      (st.emit (.stepStart (step.name.getD ("step-" ++ step.id.getD "unknown")))) script
      r hrun
    refine ⟨aid, mid, ?_, hint⟩
    rw [EvSt.events_emit, hev, EvSt.events_emit]
    simp [List.append_assoc]

/-- C8: for a workflow of 2 steps of 1 agent each whose run reports no error, the emitted event sequence is exactly stepStart1, agentRunStart1, agent-internal events, agentRunEnd1, stepEnd1, stepStart2, agentRunStart2, agent-internal events, agentRunEnd2, stepEnd2 - sibling scopes do not interleave and start/end pairs strictly bracket their children. -/
theorem sequential_ordering_spec (wcfg : AgentWorkflowConfig) (handlers : ToolHandlers)
    (input : JVal) (st : EvSt) (script : ClientScript)
    (s1 s2 : WorkflowStepConfig) (a1 a2 : AgentConfig)
    (hsteps : wcfg.steps = [s1, s2]) (ha1 : s1.agents = [a1]) (ha2 : s2.agents = [a2])
    (herr : (AgentWorkflow.run wcfg handlers input st script).2.2.2.error = none) :
    ∃ id1 id2 mid1 mid2,
      (AgentWorkflow.run wcfg handlers input st script).1.events
        = st.events
          ++ [.stepStart (s1.name.getD ("step-" ++ s1.id.getD "unknown")),
              .agentRunStart id1 a1.name] ++ mid1
          ++ [.agentRunEnd id1 a1.name,
              .stepEnd (s1.name.getD ("step-" ++ s1.id.getD "unknown")),
              .stepStart (s2.name.getD ("step-" ++ s2.id.getD "unknown")),
              .agentRunStart id2 a2.name] ++ mid2
          ++ [.agentRunEnd id2 a2.name,
              .stepEnd (s2.name.getD ("step-" ++ s2.id.getD "unknown"))] ∧
      (∀ e ∈ mid1, agentInternalEvent e) ∧ (∀ e ∈ mid2, agentInternalEvent e) := by
  unfold AgentWorkflow.run at herr ⊢
  rw [hsteps] at herr ⊢
  rw [workflowStepsLoop] at herr ⊢
  split at herr
  · dsimp only at herr
    cases herr
  · rename_i stepResult1 hstep1
    split at herr
    · dsimp only at herr
      cases herr
    · rename_i hfind1
      rw [workflowStepsLoop] at herr ⊢
      split at herr
      · dsimp only at herr
        cases herr
      · rename_i stepResult2 hstep2
        split at herr
        · dsimp only at herr
          cases herr
        · rename_i hfind2
          rw [workflowStepsLoop] at herr ⊢
          obtain ⟨aid1, mid1, hev1, hint1⟩ :=
            executeStep_single_events wcfg handlers a1 s1 input st script stepResult1
              ha1 hstep1
          obtain ⟨aid2, mid2, hev2, hint2⟩ :=
            executeStep_single_events wcfg handlers a2 s2 input
              (AgentWorkflow.executeStep wcfg handlers s1 input st script).1
              (AgentWorkflow.executeStep wcfg handlers s1 input st script).2.1
              stepResult2 ha2 hstep2
          refine ⟨aid1, aid2, mid1, mid2, ?_, hint1, hint2⟩
          dsimp only
          rw [hev2, hev1]
          simp [List.append_assoc]

/-- Witness for C8: the concrete 2-steps-of-1-agent run is error-free and shows exactly the bracketed event sequence. -/
theorem sequential_ordering_spec_witness :
    ((AgentWorkflow.run c8Wcfg [] .null ⟨[], [], 0⟩ c8Script).2.2.2.error = none) ∧
    ∃ id1 id2 mid1 mid2,
      (AgentWorkflow.run c8Wcfg [] .null ⟨[], [], 0⟩ c8Script).1.events
        = [] ++ [.stepStart "s1", .agentRunStart id1 "a1"] ++ mid1
          ++ [.agentRunEnd id1 "a1", .stepEnd "s1", .stepStart "s2",
              .agentRunStart id2 "a2"] ++ mid2
          ++ [.agentRunEnd id2 "a2", .stepEnd "s2"] ∧
      (∀ e ∈ mid1, agentInternalEvent e) ∧ (∀ e ∈ mid2, agentInternalEvent e) :=
  ⟨by decide,
   sequential_ordering_spec c8Wcfg [] .null ⟨[], [], 0⟩ c8Script c8Step1 c8Step2 c8A1 c8A2
     rfl rfl rfl (by decide)⟩

end Laminar
